import Mathlib

/-! SlicerPipelines CLI bridge: factory dispatch and converters.

A shallow embedding of

* `qSlicerPipelineCLIModulesBridgeParameterFactory.cxx` and its Legacy twin
  (the tag/multiplicity dispatch, creation by name, construction), and
* `qSlicerLegacyPipelineCLIModulesBridgeParameter.h` (the `Converter` templates).

C++ effects are made explicit: a call returns its outcome together with the
list of events it performed (text written to `std::cerr`, `new T`,
`Initialize`, destruction by the `unique_ptr`), and a thrown exception is the
`error` side of `Except`.
-/

namespace SlicerPipelines

/-! ## Data model -/

/-- The descriptor of one CLI parameter, as read by the factory through
`GetName()`, `GetTag()` and `GetMultiple()`; `Value` and `Elements` are the
current text value and the allowed values a wrapper reads at initialization. -/
structure ModuleParameter where
  Name : String
  Tag : String
  Multiple : String
  Value : String
  Elements : List String
  deriving DecidableEq, Repr

/-- The thirteen concrete wrapper classes the factory can instantiate
(`qSlicerPipelineCLIModules<X>BridgeParameter`). -/
inductive BridgeParameterClass
  | IntegerBridgeParameter
  | FloatBridgeParameter
  | DoubleBridgeParameter
  | BooleanBridgeParameter
  | StringBridgeParameter
  | IntegerVectorBridgeParameter
  | FloatVectorBridgeParameter
  | DoubleVectorBridgeParameter
  | StringVectorBridgeParameter
  | IntegerEnumerationBridgeParameter
  | FloatEnumerationBridgeParameter
  | DoubleEnumerationBridgeParameter
  | StringEnumerationBridgeParameter
  deriving DecidableEq, Repr

/-- C++ exceptions that reach the caller: the two thrown by the standard
string-to-number functions, and any other exception type. -/
inductive StdException
  | invalid_argument (what : String)
  | out_of_range (what : String)
  | other (what : String)
  deriving DecidableEq, Repr

/-- Observable steps of a factory call, in program order. -/
inductive Event
  | cerr (text : String)
  | construct (T : BridgeParameterClass)
  | Initialize (T : BridgeParameterClass) (moduleParameter : ModuleParameter)
  | destroy (T : BridgeParameterClass)
  deriving DecidableEq, Repr

/-- A wrapper object handed back by the factory: its dynamic class and the
state its `Initialize` left it in. -/
structure BridgeParameter (σ : Type) where
  cls : BridgeParameterClass
  state : σ
  deriving DecidableEq, Repr

/-- The `Initialize` member of the wrapper classes (declared outside the
factory source): run on a freshly constructed object of class `T`, it either
leaves the object in a state or throws. -/
abbrev InitializeFn (σ : Type) : Type :=
  BridgeParameterClass → ModuleParameter → Except StdException σ

/-! ## The factory: creation from a descriptor -/

/-- Embedding of `createAndInitialize<T>`: `new T` held in a `unique_ptr`,
`Initialize(moduleParameter)`, then `release()`;
if `Initialize` throws, the `unique_ptr` destroys the object and the same
exception is rethrown. -/
def createAndInitialize {σ : Type} (Initialize : InitializeFn σ)
    (T : BridgeParameterClass) (moduleParameter : ModuleParameter) :
    Except StdException (BridgeParameter σ) × List Event :=
  match Initialize T moduleParameter with
  | .ok st =>
    (.ok ⟨T, st⟩, [Event.construct T, Event.Initialize T moduleParameter])
  | .error e =>
    (.error e, [Event.construct T, Event.Initialize T moduleParameter, Event.destroy T])

/-- The text streamed into `ss` in the final `else` of `CreateParameterWrapper`
(the `std::endl` written to the string stream is the trailing newline). -/
def unknownParameterText (moduleParameter : ModuleParameter) (multiple : Bool) : String :=
  "Unknown parameter: " ++ moduleParameter.Name ++ " of type "
    ++ (if multiple then "multiple " else "") ++ moduleParameter.Tag ++ "\n"

open BridgeParameterClass in
/-- Embedding of
`qSlicerPipelineCLIModulesBridgeParameterFactory::CreateParameterWrapper(const ModuleParameter&)`. -/
def CreateParameterWrapper {σ : Type} (Initialize : InitializeFn σ)
    (moduleParameter : ModuleParameter) :
    Except StdException (BridgeParameter σ) × List Event :=
  let multiple : Bool := moduleParameter.Multiple == "true"
  if !multiple && moduleParameter.Tag == "integer" then
    createAndInitialize Initialize IntegerBridgeParameter moduleParameter
  else if !multiple && moduleParameter.Tag == "float" then
    createAndInitialize Initialize FloatBridgeParameter moduleParameter
  else if !multiple && moduleParameter.Tag == "double" then
    createAndInitialize Initialize DoubleBridgeParameter moduleParameter
  else if !multiple && moduleParameter.Tag == "boolean" then
    createAndInitialize Initialize BooleanBridgeParameter moduleParameter
  else if !multiple && moduleParameter.Tag == "string" then
    createAndInitialize Initialize StringBridgeParameter moduleParameter
  else if (!multiple && moduleParameter.Tag == "integer-vector")
      || (multiple && moduleParameter.Tag == "integer") then
    createAndInitialize Initialize IntegerVectorBridgeParameter moduleParameter
  else if (!multiple && moduleParameter.Tag == "float-vector")
      || (multiple && moduleParameter.Tag == "float") then
    createAndInitialize Initialize FloatVectorBridgeParameter moduleParameter
  else if (!multiple && moduleParameter.Tag == "double-vector")
      || (multiple && moduleParameter.Tag == "double") then
    createAndInitialize Initialize DoubleVectorBridgeParameter moduleParameter
  else if (!multiple && moduleParameter.Tag == "string-vector")
      || (multiple && moduleParameter.Tag == "string") then
    createAndInitialize Initialize StringVectorBridgeParameter moduleParameter
  else if !multiple && moduleParameter.Tag == "integer-enumeration" then
    createAndInitialize Initialize IntegerEnumerationBridgeParameter moduleParameter
  else if !multiple && moduleParameter.Tag == "float-enumeration" then
    createAndInitialize Initialize FloatEnumerationBridgeParameter moduleParameter
  else if !multiple && moduleParameter.Tag == "double-enumeration" then
    createAndInitialize Initialize DoubleEnumerationBridgeParameter moduleParameter
  else if !multiple && moduleParameter.Tag == "string-enumeration" then
    createAndInitialize Initialize StringEnumerationBridgeParameter moduleParameter
  else
    let ss := unknownParameterText moduleParameter multiple
    (.error (StdException.invalid_argument ss), [Event.cerr (ss ++ "\n")])

open BridgeParameterClass in
/-- Embedding of
`qSlicerLegacyPipelineCLIModulesBridgeParameterFactory::CreateParameterWrapper(const ModuleParameter&)`,
transcribed from the Legacy source file on its own. -/
def LegacyCreateParameterWrapper {σ : Type} (Initialize : InitializeFn σ)
    (moduleParameter : ModuleParameter) :
    Except StdException (BridgeParameter σ) × List Event :=
  let multiple : Bool := moduleParameter.Multiple == "true"
  if !multiple && moduleParameter.Tag == "integer" then
    createAndInitialize Initialize IntegerBridgeParameter moduleParameter
  else if !multiple && moduleParameter.Tag == "float" then
    createAndInitialize Initialize FloatBridgeParameter moduleParameter
  else if !multiple && moduleParameter.Tag == "double" then
    createAndInitialize Initialize DoubleBridgeParameter moduleParameter
  else if !multiple && moduleParameter.Tag == "boolean" then
    createAndInitialize Initialize BooleanBridgeParameter moduleParameter
  else if !multiple && moduleParameter.Tag == "string" then
    createAndInitialize Initialize StringBridgeParameter moduleParameter
  else if (!multiple && moduleParameter.Tag == "integer-vector")
      || (multiple && moduleParameter.Tag == "integer") then
    createAndInitialize Initialize IntegerVectorBridgeParameter moduleParameter
  else if (!multiple && moduleParameter.Tag == "float-vector")
      || (multiple && moduleParameter.Tag == "float") then
    createAndInitialize Initialize FloatVectorBridgeParameter moduleParameter
  else if (!multiple && moduleParameter.Tag == "double-vector")
      || (multiple && moduleParameter.Tag == "double") then
    createAndInitialize Initialize DoubleVectorBridgeParameter moduleParameter
  else if (!multiple && moduleParameter.Tag == "string-vector")
      || (multiple && moduleParameter.Tag == "string") then
    createAndInitialize Initialize StringVectorBridgeParameter moduleParameter
  else if !multiple && moduleParameter.Tag == "integer-enumeration" then
    createAndInitialize Initialize IntegerEnumerationBridgeParameter moduleParameter
  else if !multiple && moduleParameter.Tag == "float-enumeration" then
    createAndInitialize Initialize FloatEnumerationBridgeParameter moduleParameter
  else if !multiple && moduleParameter.Tag == "double-enumeration" then
    createAndInitialize Initialize DoubleEnumerationBridgeParameter moduleParameter
  else if !multiple && moduleParameter.Tag == "string-enumeration" then
    createAndInitialize Initialize StringEnumerationBridgeParameter moduleParameter
  else
    let ss := unknownParameterText moduleParameter multiple
    (.error (StdException.invalid_argument ss), [Event.cerr (ss ++ "\n")])

/-! ## The matching table, as the specification words it -/

/-- Base types of the specification's variants. -/
inductive BaseType
  | integer | float | double | boolean | string
  deriving DecidableEq, Repr

/-- Shapes of the specification's variants. -/
inductive Shape
  | scalar | vector | enumeration
  deriving DecidableEq, Repr

open BridgeParameterClass in
/-- The (base type, shape) variant each wrapper class stands for. -/
def BridgeParameterClass.variant : BridgeParameterClass → BaseType × Shape
  | IntegerBridgeParameter => (.integer, .scalar)
  | FloatBridgeParameter => (.float, .scalar)
  | DoubleBridgeParameter => (.double, .scalar)
  | BooleanBridgeParameter => (.boolean, .scalar)
  | StringBridgeParameter => (.string, .scalar)
  | IntegerVectorBridgeParameter => (.integer, .vector)
  | FloatVectorBridgeParameter => (.float, .vector)
  | DoubleVectorBridgeParameter => (.double, .vector)
  | StringVectorBridgeParameter => (.string, .vector)
  | IntegerEnumerationBridgeParameter => (.integer, .enumeration)
  | FloatEnumerationBridgeParameter => (.float, .enumeration)
  | DoubleEnumerationBridgeParameter => (.double, .enumeration)
  | StringEnumerationBridgeParameter => (.string, .enumeration)

/-- Column "multiplicity=false" of the matching table: tag and variant, row by row. -/
def multiplicityFalseColumn : List (String × BaseType × Shape) :=
  [ ("integer", .integer, .scalar),
    ("float", .float, .scalar),
    ("double", .double, .scalar),
    ("boolean", .boolean, .scalar),
    ("string", .string, .scalar),
    ("integer-vector", .integer, .vector),
    ("float-vector", .float, .vector),
    ("double-vector", .double, .vector),
    ("string-vector", .string, .vector),
    ("integer-enumeration", .integer, .enumeration),
    ("float-enumeration", .float, .enumeration),
    ("double-enumeration", .double, .enumeration),
    ("string-enumeration", .string, .enumeration) ]

/-- Column "multiplicity=true" of the matching table: only the four base tags
integer, float, double and string have a variant there. -/
def multiplicityTrueColumn : List (String × BaseType × Shape) :=
  [ ("integer", .integer, .vector),
    ("float", .float, .vector),
    ("double", .double, .vector),
    ("string", .string, .vector) ]

/-- The thirteen tags listed in the matching table. -/
def listedTags : List String := multiplicityFalseColumn.map Prod.fst

/-- A (tag, multiplicity) pair is a supported cell when the table has a variant there. -/
def supportedCell (tag : String) (multiple : Bool) : Bool :=
  if multiple then (multiplicityTrueColumn.map Prod.fst).contains tag
  else (multiplicityFalseColumn.map Prod.fst).contains tag

/-- The outcome of the final `else` of `CreateParameterWrapper`: the message
(with one more newline) on `std::cerr`, then `std::invalid_argument` thrown
with the message; nothing is constructed. -/
def unrecognizedOutcome {σ : Type} (moduleParameter : ModuleParameter) :
    Except StdException (BridgeParameter σ) × List Event :=
  (.error (StdException.invalid_argument
      (unknownParameterText moduleParameter (moduleParameter.Multiple == "true"))),
   [Event.cerr (unknownParameterText moduleParameter (moduleParameter.Multiple == "true") ++ "\n")])

/-- Recognises the event of a call of `Initialize`. -/
def Event.isInitialize : Event → Bool
  | .Initialize _ _ => true
  | _ => false

/-! ## The factory: creation by parameter name -/

/-- A parameter group, as iterated through `group.GetParameters()`. -/
abbrev ParameterGroup : Type := List ModuleParameter

/-- A module description, as iterated through `GetParameterGroups()`. -/
abbrev ModuleDescription : Type := List ParameterGroup

/-- A `vtkMRMLCommandLineModuleNode*`: an address, `0` being `nullptr`. -/
abbrev NodePtr : Type := Nat

/-- The live command-line-module nodes: the module description held by the
node at an address, `none` where no node lives. -/
abbrev NodeMemory : Type := NodePtr → Option ModuleDescription

/-- The private part of the factory; `CliNode` is its only data member besides
the back pointer. -/
structure FactoryPrivate where
  CliNode : NodePtr
  deriving DecidableEq, Repr

/-- Embedding of the constructor of the private class: its initializer list is
`q_ptr(&object)` and its body is empty, so `CliNode` is left uninitialized and
holds whatever the allocated storage held, here `indeterminate`. -/
def FactoryPrivate.construct (indeterminate : NodePtr) : FactoryPrivate :=
  { CliNode := indeterminate }

/-- How a call ends: it returns, it throws, or it dereferences a pointer to no
live node, after which the C++ program has no defined behaviour. -/
inductive Outcome (α : Type)
  | returned (value : α)
  | threw (e : StdException)
  | undefined
  deriving DecidableEq, Repr

/-- The inner `for` of creation by name: the first parameter of the group whose
name equals `stdParameterName` is handed to `CreateParameterWrapper`, whose
outcome ends the call; `none` when the group has no such parameter. -/
def parameterLoop {σ : Type} (Initialize : InitializeFn σ) (stdParameterName : String) :
    List ModuleParameter → Option (Except StdException (BridgeParameter σ) × List Event)
  | [] => none
  | parameter :: rest =>
    if parameter.Name == stdParameterName then
      some (CreateParameterWrapper Initialize parameter)
    else parameterLoop Initialize stdParameterName rest

/-- The outer `for` of creation by name, over the parameter groups in order. -/
def groupLoop {σ : Type} (Initialize : InitializeFn σ) (stdParameterName : String) :
    List ParameterGroup → Option (Except StdException (BridgeParameter σ) × List Event)
  | [] => none
  | group :: groups =>
    match parameterLoop Initialize stdParameterName group with
    | some r => some r
    | none => groupLoop Initialize stdParameterName groups

/-- Embedding of
`qSlicerPipelineCLIModulesBridgeParameterFactory::CreateParameterWrapper(const QString&)`.
The `QString` is taken as the text its `toStdString()` gives; a returned
`none` is `nullptr`. -/
def CreateParameterWrapperByName {σ : Type} (Initialize : InitializeFn σ)
    (memory : NodeMemory) (d : FactoryPrivate) (parameterName : String) :
    Outcome (Option (BridgeParameter σ)) × List Event :=
  if d.CliNode = 0 then
    (.returned none,
      [Event.cerr "Must load a cli module before creating parameter wrappers\n"])
  else
    match memory d.CliNode with
    | none => (.undefined, [])
    | some moduleDescription =>
      let stdParameterName := parameterName
      match groupLoop Initialize stdParameterName moduleDescription with
      | some (.ok wrapper, events) => (.returned (some wrapper), events)
      | some (.error e, events) => (.threw e, events)
      | none =>
        (.returned none,
          [Event.cerr ("Unable to find parameter with name: " ++ stdParameterName ++ "\n")])

/-- Legacy twin of `parameterLoop`, from the Legacy source file. -/
def LegacyParameterLoop {σ : Type} (Initialize : InitializeFn σ) (stdParameterName : String) :
    List ModuleParameter → Option (Except StdException (BridgeParameter σ) × List Event)
  | [] => none
  | parameter :: rest =>
    if parameter.Name == stdParameterName then
      some (LegacyCreateParameterWrapper Initialize parameter)
    else LegacyParameterLoop Initialize stdParameterName rest

/-- Legacy twin of `groupLoop`, from the Legacy source file. -/
def LegacyGroupLoop {σ : Type} (Initialize : InitializeFn σ) (stdParameterName : String) :
    List ParameterGroup → Option (Except StdException (BridgeParameter σ) × List Event)
  | [] => none
  | group :: groups =>
    match LegacyParameterLoop Initialize stdParameterName group with
    | some r => some r
    | none => LegacyGroupLoop Initialize stdParameterName groups

/-- Embedding of
`qSlicerLegacyPipelineCLIModulesBridgeParameterFactory::CreateParameterWrapper(const QString&)`. -/
def LegacyCreateParameterWrapperByName {σ : Type} (Initialize : InitializeFn σ)
    (memory : NodeMemory) (d : FactoryPrivate) (parameterName : String) :
    Outcome (Option (BridgeParameter σ)) × List Event :=
  if d.CliNode = 0 then
    (.returned none,
      [Event.cerr "Must load a cli module before creating parameter wrappers\n"])
  else
    match memory d.CliNode with
    | none => (.undefined, [])
    | some moduleDescription =>
      let stdParameterName := parameterName
      match LegacyGroupLoop Initialize stdParameterName moduleDescription with
      | some (.ok wrapper, events) => (.returned (some wrapper), events)
      | some (.error e, events) => (.threw e, events)
      | none =>
        (.returned none,
          [Event.cerr ("Unable to find parameter with name: " ++ stdParameterName ++ "\n")])

/-! ## Converters -/

/-- Embedding of `Converter<bool>::convert(const std::string&)`. -/
def Converter.bool.convert (s : String) : Bool :=
  s == "true" || s == "True" || s == "1"

/-- Embedding of `Converter<std::string>::convert(const std::string&)`. -/
def Converter.string.convert (s : String) : String := s

/-- The C function `isspace` in the "C" locale: space, `\t`, `\n`, `\v`, `\f`, `\r`. -/
def isspace (c : Char) : Bool :=
  c == ' ' || c == '\t' || c == '\n' || c == '\x0b' || c == '\x0c' || c == '\r'

/-- The C function `isdigit`. -/
def isdigit (c : Char) : Bool :=
  '0'.toNat ≤ c.toNat && c.toNat ≤ '9'.toNat

/-- The value of a decimal digit character. -/
def digitValue (c : Char) : Nat := c.toNat - '0'.toNat

/-- The number a run of decimal digits denotes, most significant digit first. -/
def decimalValue (digits : List Char) : Nat :=
  digits.foldl (fun acc c => 10 * acc + digitValue c) 0

/-- The optional sign `strtol` reads: whether it is a minus, and what follows it. -/
def readSign : List Char → Bool × List Char
  | '-' :: rest => (true, rest)
  | '+' :: rest => (false, rest)
  | rest => (false, rest)

/-- Largest value of a 32-bit `int`. -/
def INT_MAX : Int := 2147483647

/-- Smallest value of a 32-bit `int`. -/
def INT_MIN : Int := -2147483648

/-- The standard library function `std::stoi(str)` (base 10, no position
requested), as the C++ standard defines it through `strtol`: leading white
space is skipped, an optional sign is read, then the longest run of decimal
digits; what follows the run is ignored. No digit: `std::invalid_argument`;
value outside the range of `int`: `std::out_of_range`. -/
def stoi (s : String) : Except StdException Int :=
  let afterSpace := s.toList.dropWhile isspace
  let signed := readSign afterSpace
  let digits := signed.2.takeWhile isdigit
  if digits.isEmpty then .error (StdException.invalid_argument "stoi")
  else
    let magnitude : Int := (decimalValue digits : Nat)
    let value : Int := if signed.1 then -magnitude else magnitude
    if value < INT_MIN ∨ INT_MAX < value then .error (StdException.out_of_range "stoi")
    else .ok value

/-- Embedding of `Converter<int>::convert(const std::string&)`. -/
def Converter.int.convert (s : String) : Except StdException Int := stoi s

/-- A `std::stringstream` opened on a text, as far as reading goes: the
characters not yet extracted and the two state bits reading can set. -/
structure StringStream where
  buf : List Char
  eofbit : Bool
  failbit : Bool
  deriving DecidableEq, Repr

/-- The constructor `std::stringstream ss(s)`. -/
def StringStream.open (s : String) : StringStream :=
  { buf := s.toList, eofbit := false, failbit := false }

/-- The member `good()`: no state bit is set. -/
def StringStream.good (ss : StringStream) : Bool := !ss.eofbit && !ss.failbit

/-- The extraction of `std::getline`: the characters before the first
delimiter, and what follows that delimiter (which is extracted and dropped);
`none` when the end of the buffer is met before any delimiter. -/
def extractUntil (delim : Char) : List Char → List Char × Option (List Char)
  | [] => ([], none)
  | c :: cs =>
    if c == delim then ([], some cs)
    else
      let r := extractUntil delim cs
      (c :: r.1, r.2)

/-- The standard library function `std::getline(ss, substr, delim)`. On a
stream that is not good only `failbit` is set and `substr` is kept. Otherwise
`substr` is erased and filled by the extraction; meeting the end of the buffer
sets `eofbit`, and `failbit` too when nothing at all was extracted. -/
def getline (ss : StringStream) (substr : String) (delim : Char) : StringStream × String :=
  if ss.good then
    match extractUntil delim ss.buf with
    | (field, some rest) => ({ buf := rest, eofbit := false, failbit := false }, String.mk field)
    | (field, none) => ({ buf := [], eofbit := true, failbit := field.isEmpty }, String.mk field)
  else ({ ss with failbit := true }, substr)

/-- The `while (ss.good())` loop of the vector converters, run for at most
`fuel` tests of the loop condition; `none` when the fuel runs out. A scalar
conversion that throws ends the call with its exception. -/
def convertLoop {T : Type} (convert : String → Except StdException T) :
    Nat → StringStream → String → List T → Option (Except StdException (List T))
  | 0, _, _, _ => none
  | fuel + 1, ss, substr, result =>
    if ss.good then
      let r := getline ss substr ','
      match convert r.2 with
      | .error e => some (.error e)
      | .ok v => convertLoop convert fuel r.1 r.2 (result ++ [v])
    else some (.ok result)

/-- Embedding of `Converter<std::vector<T>>::convert(const std::string&)`, for
the scalar converter `convert` of the element type. The loop is given two
more tests than the text has characters. -/
def Converter.vector.convert {T : Type} (convert : String → Except StdException T)
    (s : String) : Option (Except StdException (List T)) :=
  convertLoop convert (s.length + 2) (StringStream.open s) "" []

/-- Embedding of `Converter<QVector<T>>::convert(const std::string&)`. -/
def Converter.QVector.convert {T : Type} (convert : String → Except StdException T)
    (s : String) : Option (Except StdException (List T)) :=
  convertLoop convert (s.length + 2) (StringStream.open s) "" []

/-! ## Conversion, as the specification words it -/

/-- The fields of a text split on the comma delimiter, every field kept. -/
def commaFields (s : String) : List String :=
  (s.toList.splitOn ',').map String.mk

/-- The scalar converter applied to each field in left-to-right order; the
first field it fails on ends the conversion with that failure. -/
def convertEachField {T : Type} (convert : String → Except StdException T) :
    List String → Except StdException (List T)
  | [] => .ok []
  | field :: fields =>
    match convert field with
    | .error e => .error e
    | .ok v =>
      match convertEachField convert fields with
      | .error e => .error e
      | .ok vs => .ok (v :: vs)

/-- A text that is in its entirety an optionally signed decimal integer
literal: an optional `+` or `-`, then one or more decimal digits, and nothing
else. -/
def isDecimalIntegerLiteral (s : String) : Bool :=
  let body := (readSign s.toList).2
  !body.isEmpty && body.all isdigit

/-- A text has a numeric start when, after its leading white space and an
optional sign, a decimal digit comes next. -/
def hasNumericStart (s : String) : Bool :=
  match (readSign (s.toList.dropWhile isspace)).2 with
  | [] => false
  | c :: _ => isdigit c

/-- The signed value of the digit run a text with a numeric start begins with. -/
def leadingValue (s : String) : Int :=
  let signed := readSign (s.toList.dropWhile isspace)
  let magnitude : Int := (decimalValue (signed.2.takeWhile isdigit) : Nat)
  if signed.1 then -magnitude else magnitude

/-- The parameters of a module description in group order and then in-group
order, as the specification words the scan. -/
def allParameters (moduleDescription : ModuleDescription) : List ModuleParameter :=
  moduleDescription.flatten

/-- The outcome of creation from a descriptor, seen by the caller of creation
by name: a returned wrapper is a non-null pointer, a thrown exception passes
through. -/
def liftOutcome {σ : Type} (r : Except StdException (BridgeParameter σ) × List Event) :
    Outcome (Option (BridgeParameter σ)) × List Event :=
  match r with
  | (.ok wrapper, events) => (.returned (some wrapper), events)
  | (.error e, events) => (.threw e, events)


/-! ## Loading a tool and tearing the factory down -/

/-- A `vtkSlicerCLIModuleLogic` of the host, as far as `loadCLIModule` uses it:
the pointer its `CreateNodeInScene()` returns (`0` when it fails) and the module
description the created node carries. -/
structure CLIModuleLogic where
  createdNode : NodePtr
  description : ModuleDescription
  deriving DecidableEq, Repr

/-- A `qSlicerCLIModule` of the host, as far as `loadCLIModule` uses it: the
result of `SafeDownCast(cliModule->logic())`, `none` being the null pointer. -/
structure CLIModule where
  logic : Option CLIModuleLogic
  deriving DecidableEq, Repr

/-- The host's module manager, as far as `loadCLIModule` uses it: the result of
`dynamic_cast<qSlicerCLIModule*>(moduleManager()->module(name))`, `none` being
the null pointer. -/
abbrev ModuleManager : Type := String → Option CLIModule

/-- Embedding of `qSlicerPipelineCLIModulesBridgeParameterFactory::loadCLIModule`.
Each of the three null tests only writes its line to `std::cerr`; the code goes
on, so `cliModule->logic()` and `moduleLogic->CreateNodeInScene()` are called
on the pointer just found null. A created node is live in the memory
afterwards. -/
def loadCLIModule (moduleManager : ModuleManager) (memory : NodeMemory)
    (_d : FactoryPrivate) (cliModuleName : String) :
    Outcome (FactoryPrivate × NodeMemory) × List Event :=
  match moduleManager cliModuleName with
  | none =>
    (.undefined,
      [Event.cerr ("Unable to find a qSlicerCLIModule with the name: "
        ++ cliModuleName ++ "\n")])
  | some cliModule =>
    match cliModule.logic with
    | none =>
      (.undefined,
        [Event.cerr ("Unable to find a vtkSlicerCLIModuleLogic for module with the name: "
          ++ cliModuleName ++ "\n")])
    | some moduleLogic =>
      let cliNode := moduleLogic.createdNode
      if cliNode = 0 then
        (.returned ({ CliNode := cliNode }, memory),
          [Event.cerr
            ("Unable to create a vtkMRMLCommandLineModuleNode for module with the name: "
              ++ cliModuleName ++ "\n")])
      else
        (.returned ({ CliNode := cliNode },
            fun a => if a = cliNode then some moduleLogic.description else memory a), [])

/-- Embedding of `qSlicerLegacyPipelineCLIModulesBridgeParameterFactory::loadCLIModule`. -/
def LegacyLoadCLIModule (moduleManager : ModuleManager) (memory : NodeMemory)
    (_d : FactoryPrivate) (cliModuleName : String) :
    Outcome (FactoryPrivate × NodeMemory) × List Event :=
  match moduleManager cliModuleName with
  | none =>
    (.undefined,
      [Event.cerr ("Unable to find a qSlicerCLIModule with the name: "
        ++ cliModuleName ++ "\n")])
  | some cliModule =>
    match cliModule.logic with
    | none =>
      (.undefined,
        [Event.cerr ("Unable to find a vtkSlicerCLIModuleLogic for module with the name: "
          ++ cliModuleName ++ "\n")])
    | some moduleLogic =>
      let cliNode := moduleLogic.createdNode
      if cliNode = 0 then
        (.returned ({ CliNode := cliNode }, memory),
          [Event.cerr
            ("Unable to create a vtkMRMLCommandLineModuleNode for module with the name: "
              ++ cliModuleName ++ "\n")])
      else
        (.returned ({ CliNode := cliNode },
            fun a => if a = cliNode then some moduleLogic.description else memory a), [])

/-- Embedding of the destructor `~qSlicerPipelineCLIModulesBridgeParameterFactory`:
a non-null `CliNode` that is in a scene (`GetScene()` non-null) is removed from
it; the result is which nodes are in a scene afterwards. The body names no
wrapper, and the private class keeps no list of them. -/
def FactoryDestructor (memory : NodeMemory) (GetScene : NodePtr → Bool) (d : FactoryPrivate) :
    Outcome (NodePtr → Bool) × List Event :=
  if d.CliNode = 0 then (.returned GetScene, [])
  else
    match memory d.CliNode with
    | none => (.undefined, [])
    | some _ =>
      if GetScene d.CliNode then
        (.returned (fun a => if a = d.CliNode then false else GetScene a), [])
      else (.returned GetScene, [])

/-- The wrapper objects alive after a run of events: those constructed and not
destroyed since, oldest first. -/
def liveWrappers : List Event → List BridgeParameterClass
  | [] => []
  | Event.construct T :: rest => T :: liveWrappers rest
  | Event.destroy T :: rest => (liveWrappers rest).erase T
  | _ :: rest => liveWrappers rest

/-- The classes constructed during a run of events, in order. -/
def constructedClasses : List Event → List BridgeParameterClass
  | [] => []
  | Event.construct T :: rest => T :: constructedClasses rest
  | _ :: rest => constructedClasses rest

/-! ## More converters -/

/-- Whether the subject sequence of `strtod` is non-empty, given the text after
white space and sign: a decimal digit, a point followed by a digit, or `inf`
or `nan` in any letter case comes first (a hexadecimal form starts with the
digit `0`). -/
def floatStart : List Char → Bool
  | [] => false
  | c :: rest =>
    isdigit c
      || (c == '.' && (match rest with
                        | [] => false
                        | d :: _ => isdigit d))
      || ((c :: rest).take 3).map Char.toLower == ['i', 'n', 'f']
      || ((c :: rest).take 3).map Char.toLower == ['n', 'a', 'n']

/-- The standard library function `std::stod(str)`, as the C++ standard defines
it through `strtod`, over any type `F` of `double` values: leading white space
is skipped and an optional sign read; with an empty subject sequence
`std::invalid_argument` is thrown. The value is left to `strtod`, which gives
`none` where the C function reports a range error (`std::out_of_range`). -/
def stod {F : Type} (strtod : String → Option F) (s : String) : Except StdException F :=
  let afterSpace := s.toList.dropWhile isspace
  let signed := readSign afterSpace
  if !floatStart signed.2 then .error (StdException.invalid_argument "stod")
  else
    match strtod s with
    | none => .error (StdException.out_of_range "stod")
    | some x => .ok x

/-- The standard library function `std::stof(str)`, through `strtof`, in the
same way as `stod`. -/
def stof {F : Type} (strtof : String → Option F) (s : String) : Except StdException F :=
  let afterSpace := s.toList.dropWhile isspace
  let signed := readSign afterSpace
  if !floatStart signed.2 then .error (StdException.invalid_argument "stof")
  else
    match strtof s with
    | none => .error (StdException.out_of_range "stof")
    | some x => .ok x

/-- Embedding of `Converter<double>::convert(const std::string&)`. -/
def Converter.double.convert {F : Type} (strtod : String → Option F) (s : String) :
    Except StdException F := stod strtod s

/-- Embedding of `Converter<float>::convert(const std::string&)`. -/
def Converter.float.convert {F : Type} (strtof : String → Option F) (s : String) :
    Except StdException F := stof strtof s

/-- Embedding of `Converter<std::vector<T>>::convert(const QVariant&)`; `text`
stands for `v.toString().toStdString()` on the variant type `V`. -/
def Converter.vector.convertVariant {V T : Type} (text : V → String)
    (convert : String → Except StdException T) (v : V) :
    Option (Except StdException (List T)) :=
  Converter.vector.convert convert (text v)

/-- Embedding of `Converter<QVector<T>>::convert(const QVariant&)`. -/
def Converter.QVector.convertVariant {V T : Type} (text : V → String)
    (convert : String → Except StdException T) (v : V) :
    Option (Except StdException (List T)) :=
  Converter.QVector.convert convert (text v)

/-- The decimal text form of an integer: its digits, most significant first,
after a minus sign when it is negative. -/
def decimalText : Int → String
  | Int.ofNat m => String.mk (Nat.toDigits 10 m)
  | Int.negSucc m => String.mk ('-' :: Nat.toDigits 10 (m + 1))

/-! # Theorems -/

/-! ## Dispatch lemmas -/

/-- The Legacy factory's dispatch is the same function as the non-Legacy one. -/
theorem LegacyCreateParameterWrapper_eq {σ : Type} (Initialize : InitializeFn σ)
    (p : ModuleParameter) :
    LegacyCreateParameterWrapper Initialize p = CreateParameterWrapper Initialize p := rfl

/-- Dispatch when the multiplicity text is not "true": the tag decides, row by row. -/
theorem dispatch_single {σ : Type} (Initialize : InitializeFn σ) (p : ModuleParameter) :
    (supportedCell p.Tag false = false
      ∧ (p.Multiple ≠ "true" → CreateParameterWrapper Initialize p = unrecognizedOutcome p))
    ∨ (supportedCell p.Tag false = true ∧
        ∃ T, (p.Tag, T.variant) ∈ multiplicityFalseColumn
          ∧ (p.Multiple ≠ "true" →
              CreateParameterWrapper Initialize p = createAndInitialize Initialize T p)) := by
  by_cases h1 : p.Tag = "integer"
  · exact Or.inr ⟨by simp [supportedCell, multiplicityFalseColumn, h1], .IntegerBridgeParameter,
      by simp [multiplicityFalseColumn, BridgeParameterClass.variant, h1],
      fun hm => by simp [CreateParameterWrapper, h1, hm]⟩
  by_cases h2 : p.Tag = "float"
  · exact Or.inr ⟨by simp [supportedCell, multiplicityFalseColumn, h2], .FloatBridgeParameter,
      by simp [multiplicityFalseColumn, BridgeParameterClass.variant, h2],
      fun hm => by simp [CreateParameterWrapper, h2, hm]⟩
  by_cases h3 : p.Tag = "double"
  · exact Or.inr ⟨by simp [supportedCell, multiplicityFalseColumn, h3], .DoubleBridgeParameter,
      by simp [multiplicityFalseColumn, BridgeParameterClass.variant, h3],
      fun hm => by simp [CreateParameterWrapper, h3, hm]⟩
  by_cases h4 : p.Tag = "boolean"
  · exact Or.inr ⟨by simp [supportedCell, multiplicityFalseColumn, h4], .BooleanBridgeParameter,
      by simp [multiplicityFalseColumn, BridgeParameterClass.variant, h4],
      fun hm => by simp [CreateParameterWrapper, h4, hm]⟩
  by_cases h5 : p.Tag = "string"
  · exact Or.inr ⟨by simp [supportedCell, multiplicityFalseColumn, h5], .StringBridgeParameter,
      by simp [multiplicityFalseColumn, BridgeParameterClass.variant, h5],
      fun hm => by simp [CreateParameterWrapper, h5, hm]⟩
  by_cases h6 : p.Tag = "integer-vector"
  · exact Or.inr ⟨by simp [supportedCell, multiplicityFalseColumn, h6], .IntegerVectorBridgeParameter,
      by simp [multiplicityFalseColumn, BridgeParameterClass.variant, h6],
      fun hm => by simp [CreateParameterWrapper, h6, hm]⟩
  by_cases h7 : p.Tag = "float-vector"
  · exact Or.inr ⟨by simp [supportedCell, multiplicityFalseColumn, h7], .FloatVectorBridgeParameter,
      by simp [multiplicityFalseColumn, BridgeParameterClass.variant, h7],
      fun hm => by simp [CreateParameterWrapper, h7, hm]⟩
  by_cases h8 : p.Tag = "double-vector"
  · exact Or.inr ⟨by simp [supportedCell, multiplicityFalseColumn, h8], .DoubleVectorBridgeParameter,
      by simp [multiplicityFalseColumn, BridgeParameterClass.variant, h8],
      fun hm => by simp [CreateParameterWrapper, h8, hm]⟩
  by_cases h9 : p.Tag = "string-vector"
  · exact Or.inr ⟨by simp [supportedCell, multiplicityFalseColumn, h9], .StringVectorBridgeParameter,
      by simp [multiplicityFalseColumn, BridgeParameterClass.variant, h9],
      fun hm => by simp [CreateParameterWrapper, h9, hm]⟩
  by_cases h10 : p.Tag = "integer-enumeration"
  · exact Or.inr ⟨by simp [supportedCell, multiplicityFalseColumn, h10],
      .IntegerEnumerationBridgeParameter,
      by simp [multiplicityFalseColumn, BridgeParameterClass.variant, h10],
      fun hm => by simp [CreateParameterWrapper, h10, hm]⟩
  by_cases h11 : p.Tag = "float-enumeration"
  · exact Or.inr ⟨by simp [supportedCell, multiplicityFalseColumn, h11],
      .FloatEnumerationBridgeParameter,
      by simp [multiplicityFalseColumn, BridgeParameterClass.variant, h11],
      fun hm => by simp [CreateParameterWrapper, h11, hm]⟩
  by_cases h12 : p.Tag = "double-enumeration"
  · exact Or.inr ⟨by simp [supportedCell, multiplicityFalseColumn, h12],
      .DoubleEnumerationBridgeParameter,
      by simp [multiplicityFalseColumn, BridgeParameterClass.variant, h12],
      fun hm => by simp [CreateParameterWrapper, h12, hm]⟩
  by_cases h13 : p.Tag = "string-enumeration"
  · exact Or.inr ⟨by simp [supportedCell, multiplicityFalseColumn, h13],
      .StringEnumerationBridgeParameter,
      by simp [multiplicityFalseColumn, BridgeParameterClass.variant, h13],
      fun hm => by simp [CreateParameterWrapper, h13, hm]⟩
  · exact Or.inl ⟨by simp [supportedCell, multiplicityFalseColumn, *],
      fun hm => by simp [CreateParameterWrapper, unrecognizedOutcome, *]⟩

/-- Dispatch when the multiplicity text is "true": only the four base tags match. -/
theorem dispatch_multiple {σ : Type} (Initialize : InitializeFn σ) (p : ModuleParameter)
    (hm : p.Multiple = "true") :
    (supportedCell p.Tag true = false
      ∧ CreateParameterWrapper Initialize p = unrecognizedOutcome p)
    ∨ (supportedCell p.Tag true = true ∧
        ∃ T, (p.Tag, T.variant) ∈ multiplicityTrueColumn
          ∧ CreateParameterWrapper Initialize p = createAndInitialize Initialize T p) := by
  by_cases h1 : p.Tag = "integer"
  · exact Or.inr ⟨by simp [supportedCell, multiplicityTrueColumn, h1], .IntegerVectorBridgeParameter,
      by simp [multiplicityTrueColumn, BridgeParameterClass.variant, h1],
      by simp [CreateParameterWrapper, h1, hm]⟩
  by_cases h2 : p.Tag = "float"
  · exact Or.inr ⟨by simp [supportedCell, multiplicityTrueColumn, h2], .FloatVectorBridgeParameter,
      by simp [multiplicityTrueColumn, BridgeParameterClass.variant, h2],
      by simp [CreateParameterWrapper, h2, hm]⟩
  by_cases h3 : p.Tag = "double"
  · exact Or.inr ⟨by simp [supportedCell, multiplicityTrueColumn, h3], .DoubleVectorBridgeParameter,
      by simp [multiplicityTrueColumn, BridgeParameterClass.variant, h3],
      by simp [CreateParameterWrapper, h3, hm]⟩
  by_cases h4 : p.Tag = "string"
  · exact Or.inr ⟨by simp [supportedCell, multiplicityTrueColumn, h4], .StringVectorBridgeParameter,
      by simp [multiplicityTrueColumn, BridgeParameterClass.variant, h4],
      by simp [CreateParameterWrapper, h4, hm]⟩
  · exact Or.inl ⟨by simp [supportedCell, multiplicityTrueColumn, *],
      by simp [CreateParameterWrapper, unrecognizedOutcome, *]⟩

/-- The cell of a descriptor: its tag and whether its multiplicity text is "true". -/
theorem dispatch_cell {σ : Type} (Initialize : InitializeFn σ) (p : ModuleParameter) :
    (supportedCell p.Tag (p.Multiple == "true") = false
      ∧ CreateParameterWrapper Initialize p = unrecognizedOutcome p)
    ∨ (supportedCell p.Tag (p.Multiple == "true") = true ∧
        ∃ T, (p.Tag, T.variant) ∈
            (if (p.Multiple == "true") = true then multiplicityTrueColumn
              else multiplicityFalseColumn)
          ∧ CreateParameterWrapper Initialize p = createAndInitialize Initialize T p) := by
  by_cases hm : p.Multiple = "true"
  · have hb : (p.Multiple == "true") = true := by simp [hm]
    rw [hb]
    simpa using dispatch_multiple Initialize p hm
  · have hb : (p.Multiple == "true") = false := by simpa using hm
    rw [hb]
    rcases dispatch_single Initialize p with ⟨h1, h2⟩ | ⟨h1, T, h2, h3⟩
    · exact Or.inl ⟨h1, h2 hm⟩
    · exact Or.inr ⟨h1, T, by simpa using h2, h3 hm⟩

/-- The variant decides the wrapper class. -/
theorem variant_injective (T U : BridgeParameterClass) (h : T.variant = U.variant) : T = U := by
  cases T <;> cases U <;> simp [BridgeParameterClass.variant] at h <;> rfl

/-- Each tag stands in at most one row of the multiplicity=false column. -/
theorem falseColumn_functional (tag : String) (v w : BaseType × Shape)
    (hv : (tag, v) ∈ multiplicityFalseColumn) (hw : (tag, w) ∈ multiplicityFalseColumn) :
    v = w := by
  simp only [multiplicityFalseColumn, List.mem_cons, Prod.mk.injEq, List.mem_singleton,
    List.not_mem_nil, or_false] at hv hw
  rcases hv with h | h | h | h | h | h | h | h | h | h | h | h | h <;>
    obtain ⟨ht, rfl⟩ := h <;> subst ht <;> simp at hw <;> exact hw.symm

/-- Each tag stands in at most one row of the multiplicity=true column. -/
theorem trueColumn_functional (tag : String) (v w : BaseType × Shape)
    (hv : (tag, v) ∈ multiplicityTrueColumn) (hw : (tag, w) ∈ multiplicityTrueColumn) :
    v = w := by
  simp only [multiplicityTrueColumn, List.mem_cons, Prod.mk.injEq, List.mem_singleton,
    List.not_mem_nil, or_false] at hv hw
  rcases hv with h | h | h | h <;>
    obtain ⟨ht, rfl⟩ := h <;> subst ht <;> simp at hw <;> exact hw.symm

/-- A call that constructs a wrapper does not end as the unrecognized outcome. -/
theorem createAndInitialize_ne_unrecognized {σ : Type} (Initialize : InitializeFn σ)
    (T : BridgeParameterClass) (p : ModuleParameter) :
    createAndInitialize Initialize T p ≠ unrecognizedOutcome p := by
  unfold createAndInitialize unrecognizedOutcome
  split <;> simp

/-! ## Claims about creation from a descriptor -/

/-- C1: for a descriptor whose multiplicity text is not "true", whose tag
stands in a row of the multiplicity=false column, and whose initialization
succeeds, both factories return a wrapper of exactly that row's variant, in
the state initialization left. -/
theorem C1_single_returns_false_column_variant {σ : Type} (Initialize : InitializeFn σ)
    (p : ModuleParameter) (T : BridgeParameterClass) (st : σ)
    (hmult : p.Multiple ≠ "true")
    (hrow : (p.Tag, T.variant) ∈ multiplicityFalseColumn)
    (hinit : Initialize T p = .ok st) :
    (CreateParameterWrapper Initialize p).1 = .ok ⟨T, st⟩
      ∧ (LegacyCreateParameterWrapper Initialize p).1 = .ok ⟨T, st⟩ := by
  rw [LegacyCreateParameterWrapper_eq]
  rcases dispatch_single Initialize p with ⟨h1, _⟩ | ⟨_, U, h2, h3⟩
  · exfalso
    have : supportedCell p.Tag false = true := by
      simp only [supportedCell, Bool.false_eq_true, if_false, List.contains_iff_exists_mem_beq]
      exact ⟨p.Tag, List.mem_map.mpr ⟨_, hrow, rfl⟩, by simp⟩
    simp [h1] at this
  · have hTU : T = U :=
      variant_injective T U (falseColumn_functional p.Tag _ _ hrow h2)
    subst hTU
    simp [h3 hmult, createAndInitialize, hinit]

/-- Witness for C1: tag "integer-enumeration" with multiplicity text "false". -/
theorem C1_single_returns_false_column_variant_witness :
    (⟨"mode", "integer-enumeration", "false", "1", ["1", "2"]⟩ : ModuleParameter).Multiple ≠ "true"
    ∧ (CreateParameterWrapper (fun _ _ => Except.ok ())
        ⟨"mode", "integer-enumeration", "false", "1", ["1", "2"]⟩).1
      = .ok ⟨BridgeParameterClass.IntegerEnumerationBridgeParameter, ()⟩
    ∧ (LegacyCreateParameterWrapper (fun _ _ => Except.ok ())
        ⟨"mode", "integer-enumeration", "false", "1", ["1", "2"]⟩).1
      = .ok ⟨BridgeParameterClass.IntegerEnumerationBridgeParameter, ()⟩ :=
  ⟨by decide, C1_single_returns_false_column_variant (fun _ _ => Except.ok ())
    ⟨"mode", "integer-enumeration", "false", "1", ["1", "2"]⟩
    BridgeParameterClass.IntegerEnumerationBridgeParameter () (by decide)
    (by simp [multiplicityFalseColumn, BridgeParameterClass.variant]) rfl⟩

/-- C2: for a descriptor whose multiplicity text is "true", every wrapper the
factory returns is a vector wrapper, of the base type the tag names; and for
each of the base tags integer, float, double and string it does return that
vector wrapper when initialization succeeds. -/
theorem C2_multiple_returns_only_vector {σ : Type} (Initialize : InitializeFn σ)
    (p : ModuleParameter) (hmult : p.Multiple = "true") :
    (∀ w, (CreateParameterWrapper Initialize p).1 = .ok w →
        w.cls.variant.2 = Shape.vector ∧ w.cls.variant.2 ≠ Shape.scalar
          ∧ w.cls.variant.2 ≠ Shape.enumeration
          ∧ (p.Tag, w.cls.variant) ∈ multiplicityTrueColumn)
    ∧ (∀ T st, (p.Tag, T.variant) ∈ multiplicityTrueColumn → Initialize T p = .ok st →
        (CreateParameterWrapper Initialize p).1 = .ok ⟨T, st⟩) := by
  rcases dispatch_multiple Initialize p hmult with ⟨_, h2⟩ | ⟨_, U, h2, h3⟩
  · constructor
    · intro w hw
      simp [h2, unrecognizedOutcome] at hw
    · intro T st hrow _
      exfalso
      simp only [multiplicityTrueColumn, List.mem_cons, Prod.mk.injEq, List.mem_singleton,
        List.not_mem_nil, or_false] at hrow
      have hs : supportedCell p.Tag true = true := by
        rcases hrow with h | h | h | h <;> simp [supportedCell, multiplicityTrueColumn, h.1]
      simp_all
  · constructor
    · intro w hw
      have hcls : w.cls = U := by
        rw [h3] at hw
        unfold createAndInitialize at hw
        split at hw
        · simp at hw; rw [← hw]
        · simp at hw
      have hsh : U.variant.2 = Shape.vector := by
        simp only [multiplicityTrueColumn, List.mem_cons, Prod.mk.injEq, List.mem_singleton,
          List.not_mem_nil, or_false] at h2
        rcases h2 with h | h | h | h <;> rw [h.2]
      rw [hcls]
      exact ⟨hsh, by simp [hsh], by simp [hsh], h2⟩
    · intro T st hrow hinit
      have hTU : T = U := variant_injective T U (trueColumn_functional p.Tag _ _ hrow h2)
      subst hTU
      simp [h3, createAndInitialize, hinit]

/-- Witness for C2: tag "double" with multiplicity text "true". -/
theorem C2_multiple_returns_only_vector_witness :
    (⟨"spacing", "double", "true", "1,1,1", []⟩ : ModuleParameter).Multiple = "true"
    ∧ (CreateParameterWrapper (fun _ _ => Except.ok ())
        ⟨"spacing", "double", "true", "1,1,1", []⟩).1
      = .ok ⟨BridgeParameterClass.DoubleVectorBridgeParameter, ()⟩ :=
  ⟨rfl, (C2_multiple_returns_only_vector (fun _ _ => Except.ok ())
    ⟨"spacing", "double", "true", "1,1,1", []⟩ rfl).2
    BridgeParameterClass.DoubleVectorBridgeParameter ()
    (by simp [multiplicityTrueColumn, BridgeParameterClass.variant]) rfl⟩

/-- A text that ends in `suffix` differs from any other text no longer than `suffix`. -/
theorem append_ne_of_short (base suffix target : String)
    (hlen : target.length ≤ suffix.length) (hne : suffix ≠ target) :
    base ++ suffix ≠ target := by
  intro h
  have hl : (base ++ suffix).length = target.length := by rw [h]
  rw [String.length_append] at hl
  have hb : base.data = [] := List.length_eq_zero.mp (by
    have : base.data.length = base.length := rfl
    omega)
  have : base = "" := String.ext (by simp [hb])
  rw [this] at h
  exact hne (by simpa using h)

/-- C3: the factory ends as the unrecognized outcome (the message on the
diagnostic channel and `std::invalid_argument` thrown, nothing else done)
exactly when the descriptor's (tag, multiplicity) pair is not a supported cell
of the matching table. So it does for tag boolean with multiplicity true, for
every tag ending in -vector or -enumeration with multiplicity true, and for
every tag outside the thirteen listed; in that outcome no wrapper is
constructed and none is initialized. -/
theorem C3_unrecognized_iff_unsupported {σ : Type} (Initialize : InitializeFn σ)
    (p : ModuleParameter) :
    (CreateParameterWrapper Initialize p = unrecognizedOutcome p
        ↔ supportedCell p.Tag (p.Multiple == "true") = false)
    ∧ (p.Tag = "boolean" → p.Multiple = "true" →
        CreateParameterWrapper Initialize p = unrecognizedOutcome p)
    ∧ (∀ base : String, p.Tag = base ++ "-vector" ∨ p.Tag = base ++ "-enumeration" →
        p.Multiple = "true" → CreateParameterWrapper Initialize p = unrecognizedOutcome p)
    ∧ (p.Tag ∉ listedTags → CreateParameterWrapper Initialize p = unrecognizedOutcome p)
    ∧ (CreateParameterWrapper Initialize p = unrecognizedOutcome p →
        (∃ what, (CreateParameterWrapper Initialize p).1
            = .error (StdException.invalid_argument what))
        ∧ ∀ T, Event.construct T ∉ (CreateParameterWrapper Initialize p).2
            ∧ ∀ q, Event.Initialize T q ∉ (CreateParameterWrapper Initialize p).2) := by
  have hiff : CreateParameterWrapper Initialize p = unrecognizedOutcome p
      ↔ supportedCell p.Tag (p.Multiple == "true") = false := by
    rcases dispatch_cell Initialize p with ⟨h1, h2⟩ | ⟨h1, T, _, h3⟩
    · simp [h1, h2]
    · simp [h1, h3, createAndInitialize_ne_unrecognized]
  refine ⟨hiff, ?_, ?_, ?_, ?_⟩
  · intro ht hm
    rw [hiff, ht, hm]
    decide
  · intro base ht hm
    rw [hiff, hm]
    have h1 : p.Tag ≠ "integer" := by
      rcases ht with h | h <;> rw [h] <;> exact append_ne_of_short _ _ _ (by decide) (by decide)
    have h2 : p.Tag ≠ "float" := by
      rcases ht with h | h <;> rw [h] <;> exact append_ne_of_short _ _ _ (by decide) (by decide)
    have h3 : p.Tag ≠ "double" := by
      rcases ht with h | h <;> rw [h] <;> exact append_ne_of_short _ _ _ (by decide) (by decide)
    have h4 : p.Tag ≠ "string" := by
      rcases ht with h | h <;> rw [h] <;> exact append_ne_of_short _ _ _ (by decide) (by decide)
    simp [supportedCell, multiplicityTrueColumn, h1, h2, h3, h4]
  · intro hnot
    rw [hiff]
    simp only [listedTags, multiplicityFalseColumn, List.map_cons, List.map_nil, List.mem_cons,
      List.mem_singleton, List.not_mem_nil, or_false, not_or] at hnot
    by_cases hm : p.Multiple = "true"
    · simp [supportedCell, multiplicityTrueColumn, hm, hnot]
    · simp [supportedCell, multiplicityFalseColumn, hm, hnot]
  · intro h
    rw [h]
    simp [unrecognizedOutcome]

/-- Witness for C3: tag "boolean" with multiplicity text "true" is unrecognized. -/
theorem C3_unrecognized_iff_unsupported_witness :
    (⟨"flags", "boolean", "true", "", []⟩ : ModuleParameter).Tag = "boolean"
    ∧ (⟨"flags", "boolean", "true", "", []⟩ : ModuleParameter).Multiple = "true"
    ∧ CreateParameterWrapper (fun _ _ => Except.ok ()) ⟨"flags", "boolean", "true", "", []⟩
      = (.error (StdException.invalid_argument "Unknown parameter: flags of type multiple boolean\n"),
          [Event.cerr "Unknown parameter: flags of type multiple boolean\n\n"]) :=
  ⟨rfl, rfl, (C3_unrecognized_iff_unsupported (fun _ _ => Except.ok ())
    ⟨"flags", "boolean", "true", "", []⟩).2.1 rfl rfl⟩

/-- C10: for a descriptor whose (tag, multiplicity) pair is a supported cell,
the factory constructs the wrapper class `T` of that cell and calls its
initialization exactly once, with that same descriptor. If the initialization
succeeds, the wrapper in the state it left is returned; if it throws `e`, the
object is destroyed, the call throws exactly `e`, and no wrapper is returned. -/
theorem C10_initialize_once_and_propagate {σ : Type} (Initialize : InitializeFn σ)
    (p : ModuleParameter)
    (hsup : supportedCell p.Tag (p.Multiple == "true") = true) :
    ∃ T, (p.Tag, T.variant) ∈
        (if (p.Multiple == "true") = true then multiplicityTrueColumn
          else multiplicityFalseColumn)
      ∧ (CreateParameterWrapper Initialize p).2.filter Event.isInitialize
          = [Event.Initialize T p]
      ∧ (∀ st, Initialize T p = .ok st →
          CreateParameterWrapper Initialize p
            = (.ok ⟨T, st⟩, [Event.construct T, Event.Initialize T p]))
      ∧ (∀ e, Initialize T p = .error e →
          CreateParameterWrapper Initialize p
            = (.error e, [Event.construct T, Event.Initialize T p, Event.destroy T])) := by
  rcases dispatch_cell Initialize p with ⟨h1, _⟩ | ⟨_, T, h2, h3⟩
  · rw [hsup] at h1
    exact absurd h1 (by decide)
  · refine ⟨T, h2, ?_, ?_, ?_⟩
    · rw [h3]
      unfold createAndInitialize
      split <;> simp [List.filter, Event.isInitialize]
    · intro st hinit
      rw [h3]
      simp [createAndInitialize, hinit]
    · intro e hinit
      rw [h3]
      simp [createAndInitialize, hinit]

/-- Witness for C10: a string descriptor whose initialization throws; the
exception is the outcome and the object built for it is destroyed. -/
theorem C10_initialize_once_and_propagate_witness :
    supportedCell "string" (("false" : String) == "true") = true
    ∧ CreateParameterWrapper
        (fun _ _ => (Except.error (StdException.other "init") : Except StdException Unit))
        ⟨"label", "string", "false", "x", []⟩
      = (.error (StdException.other "init"),
          [Event.construct BridgeParameterClass.StringBridgeParameter,
           Event.Initialize BridgeParameterClass.StringBridgeParameter
             ⟨"label", "string", "false", "x", []⟩,
           Event.destroy BridgeParameterClass.StringBridgeParameter]) :=
  ⟨by decide, by
    obtain ⟨T, hrow, _, _, herr⟩ := C10_initialize_once_and_propagate
      (fun _ _ => (Except.error (StdException.other "init") : Except StdException Unit))
      ⟨"label", "string", "false", "x", []⟩ (by decide)
    have hT : T = BridgeParameterClass.StringBridgeParameter :=
      variant_injective _ _ (falseColumn_functional "string" _ _ hrow
        (by simp [multiplicityFalseColumn, BridgeParameterClass.variant]))
    subst hT
    exact herr _ rfl⟩

/-! ## Claims about the converters -/

/-- Splitting on a delimiter, one extraction at a time. -/
theorem splitOn_eq_extractUntil (delim : Char) (cs : List Char) :
    cs.splitOn delim =
      match extractUntil delim cs with
      | (field, none) => [field]
      | (field, some rest) => field :: rest.splitOn delim := by
  induction cs with
  | nil => simp [List.splitOn, extractUntil]
  | cons c cs ih =>
    unfold List.splitOn at ih ⊢
    rw [List.splitOnP_cons]
    by_cases hc : (c == delim) = true
    · simp [extractUntil, hc]
    · simp only [extractUntil, hc, if_false, Bool.false_eq_true]
      rw [ih]
      rcases h : extractUntil delim cs with ⟨f, _ | r⟩ <;> simp [List.modifyHead]

/-- What follows the delimiter is shorter than what was there. -/
theorem extractUntil_rest_length (delim : Char) (cs field rest : List Char)
    (h : extractUntil delim cs = (field, some rest)) : rest.length < cs.length := by
  induction cs generalizing field with
  | nil => simp [extractUntil] at h
  | cons c cs ih =>
    by_cases hc : (c == delim) = true
    · simp [extractUntil, hc] at h
      rw [← h.2]; simp
    · simp only [extractUntil, hc, if_false, Bool.false_eq_true, Prod.mk.injEq] at h
      have := ih (extractUntil delim cs).1 (Prod.ext rfl h.2)
      simp only [List.length_cons]
      omega

/-- The loop of the vector converters on a good stream: with enough fuel it
ends, having converted the comma-separated fields of the buffer in order. -/
theorem convertLoop_good {T : Type} (convert : String → Except StdException T) :
    ∀ (fuel : Nat) (cs : List Char) (substr : String) (acc : List T),
      cs.length + 2 ≤ fuel →
      convertLoop convert fuel { buf := cs, eofbit := false, failbit := false } substr acc
        = some (match convertEachField convert ((cs.splitOn ',').map String.mk) with
                | .ok vs => .ok (acc ++ vs)
                | .error e => .error e) := by
  intro fuel
  induction fuel with
  | zero => intro cs _ _ h; omega
  | succ fuel ih =>
    intro cs substr acc hfuel
    rw [splitOn_eq_extractUntil]
    rcases hx : extractUntil ',' cs with ⟨field, _ | rest⟩
    · cases hcv : convert (String.mk field) with
      | error e => simp [convertLoop, StringStream.good, getline, hx, hcv, convertEachField]
      | ok v =>
        obtain ⟨k, rfl⟩ : ∃ k, fuel = k + 1 := ⟨fuel - 1, by omega⟩
        simp [convertLoop, StringStream.good, getline, hx, hcv, convertEachField]
    · have hlen := extractUntil_rest_length ',' cs field rest hx
      cases hcv : convert (String.mk field) with
      | error e => simp [convertLoop, StringStream.good, getline, hx, hcv, convertEachField]
      | ok v =>
        have := ih rest (String.mk field) (acc ++ [v]) (by omega)
        simp only [convertLoop, StringStream.good, getline, hx, hcv, convertEachField,
          Bool.not_false, Bool.and_self, if_true, List.map_cons]
        rw [this]
        cases convertEachField convert (List.map String.mk (rest.splitOn ',')) <;> simp

/-- The vector converter returns what converting each comma-separated field gives. -/
theorem vector_convert_eq {T : Type} (convert : String → Except StdException T) (s : String) :
    Converter.vector.convert convert s = some (convertEachField convert (commaFields s)) := by
  unfold Converter.vector.convert StringStream.open commaFields
  rw [convertLoop_good convert (s.length + 2) s.toList "" [] (le_refl _)]
  cases convertEachField convert (List.map String.mk (s.toList.splitOn ',')) <;> simp

/-- Converting each field fails exactly when the scalar converter fails on a field. -/
theorem convertEachField_error_iff {T : Type} (convert : String → Except StdException T)
    (fields : List String) :
    (∃ e, convertEachField convert fields = .error e)
      ↔ ∃ f ∈ fields, ∃ e, convert f = .error e := by
  induction fields with
  | nil => simp [convertEachField]
  | cons f fs ih =>
    cases hcv : convert f with
    | error e => simp [convertEachField, hcv]
    | ok v =>
      cases hrest : convertEachField convert fs with
      | error e =>
        have := ih.mp ⟨e, hrest⟩
        simp [convertEachField, hcv, hrest, this]
      | ok vs =>
        have hno : ¬ ∃ f ∈ fs, ∃ e, convert f = .error e := by
          intro h; obtain ⟨e, he⟩ := ih.mpr h; simp [hrest] at he
        simp only [convertEachField, hcv, hrest, List.mem_cons, exists_eq_or_imp]
        simp [hno]

/-- When the scalar converter succeeds on every field, converting each field
gives the values in the order of the fields. -/
theorem convertEachField_ok {T : Type} (convert : String → Except StdException T)
    (fields : List String) (vs : List T)
    (h : fields.map convert = vs.map Except.ok) :
    convertEachField convert fields = .ok vs := by
  induction fields generalizing vs with
  | nil =>
    cases vs <;> simp_all [convertEachField]
  | cons f fs ih =>
    cases vs with
    | nil => simp at h
    | cons v vs =>
      simp only [List.map_cons, List.cons.injEq] at h
      simp [convertEachField, h.1, ih vs h.2]

/-- C4: for every text and every element type, both vector converters return
the scalar converter applied, in left-to-right order, to each field of the
text split on the comma (every field kept, empty ones too). They fail exactly
when the scalar converter fails on some field, and when it succeeds on all the
fields the result lists their values in order. For "1,2,3" and `int` the
result is [1, 2, 3]. -/
theorem C4_vector_convert_is_fieldwise {T : Type}
    (convert : String → Except StdException T) (s : String) :
    Converter.vector.convert convert s = some (convertEachField convert (commaFields s))
    ∧ Converter.QVector.convert convert s = some (convertEachField convert (commaFields s))
    ∧ ((∃ e, Converter.vector.convert convert s = some (.error e))
        ↔ ∃ f ∈ commaFields s, ∃ e, convert f = .error e)
    ∧ (∀ vs : List T, (commaFields s).map convert = vs.map Except.ok →
        Converter.vector.convert convert s = some (.ok vs))
    ∧ commaFields ",a,," = ["", "a", "", ""]
    ∧ Converter.vector.convert Converter.int.convert "1,2,3" = some (.ok [1, 2, 3]) := by
  have h := vector_convert_eq convert s
  refine ⟨h, h, ?_, ?_, rfl, rfl⟩
  · rw [h, ← convertEachField_error_iff]
    simp
  · intro vs hvs
    rw [h, convertEachField_ok convert _ vs hvs]

/-- Witness for C4: the string vector of "a,,b" keeps the empty middle field. -/
theorem C4_vector_convert_is_fieldwise_witness :
    (commaFields "a,,b").map (fun t => (Except.ok t : Except StdException String))
      = (["a", "", "b"] : List String).map Except.ok
    ∧ Converter.vector.convert (fun t => (Except.ok t : Except StdException String)) "a,,b"
      = some (.ok ["a", "", "b"]) :=
  ⟨rfl, (C4_vector_convert_is_fieldwise
    (fun t => (Except.ok t : Except StdException String)) "a,,b").2.2.2.1 ["a", "", "b"] rfl⟩

/-- C5: the boolean converter is a total function to `Bool`; it gives true
exactly on the texts "true", "True" and "1", and false on every other text,
among them "false", "0", "", "yes", "TRUE" and " true". -/
theorem C5_bool_convert_true_iff (s : String) :
    (Converter.bool.convert s = true ↔ s = "true" ∨ s = "True" ∨ s = "1")
    ∧ (Converter.bool.convert s = false ↔ ¬ (s = "true" ∨ s = "True" ∨ s = "1"))
    ∧ Converter.bool.convert "true" = true
    ∧ Converter.bool.convert "True" = true
    ∧ Converter.bool.convert "1" = true
    ∧ Converter.bool.convert "false" = false
    ∧ Converter.bool.convert "0" = false
    ∧ Converter.bool.convert "" = false
    ∧ Converter.bool.convert "yes" = false
    ∧ Converter.bool.convert "TRUE" = false
    ∧ Converter.bool.convert " true" = false := by
  have h : Converter.bool.convert s = true ↔ s = "true" ∨ s = "True" ∨ s = "1" := by
    simp [Converter.bool.convert, or_assoc]
  refine ⟨h, ?_, by decide, by decide, by decide, by decide, by decide, by decide, by decide,
    by decide, by decide⟩
  rw [← h]
  simp

/-- The longest run satisfying a test is empty exactly when the list is empty
or its first element fails the test. -/
theorem takeWhile_isEmpty {α : Type} (p : α → Bool) (l : List α) :
    (l.takeWhile p).isEmpty = (match l with | [] => true | c :: _ => !p c) := by
  cases l with
  | nil => rfl
  | cons c cs =>
    cases hc : p c <;> simp [List.takeWhile, hc]

/-- Whether `std::stoi` finds a digit run is whether the text has a numeric start. -/
theorem stoi_digits_isEmpty (s : String) :
    ((readSign (s.toList.dropWhile isspace)).2.takeWhile isdigit).isEmpty
      = !hasNumericStart s := by
  rw [takeWhile_isEmpty]
  unfold hasNumericStart
  cases (readSign (s.toList.dropWhile isspace)).2 <;> simp

/-- What `std::stoi` returns, in terms of the numeric start and its value. -/
theorem stoi_eq (s : String) :
    stoi s =
      if hasNumericStart s = false then .error (StdException.invalid_argument "stoi")
      else if leadingValue s < INT_MIN ∨ INT_MAX < leadingValue s then
        .error (StdException.out_of_range "stoi")
      else .ok (leadingValue s) := by
  unfold stoi
  simp only [stoi_digits_isEmpty, leadingValue]
  cases hasNumericStart s <;> simp

/-- The sign reader on a non-empty text, by its first character. -/
theorem readSign_cons (c : Char) (cs : List Char) :
    readSign (c :: cs)
      = if c = '-' then (true, cs) else if c = '+' then (false, cs) else (false, c :: cs) := by
  by_cases h1 : c = '-'
  · subst h1; rfl
  · by_cases h2 : c = '+'
    · subst h2; rfl
    · simp only [h1, h2, if_false]
      unfold readSign
      split
      · exact absurd (by simp_all) h1
      · exact absurd (by simp_all) h2
      · rfl

/-- A decimal digit is not white space. -/
theorem isspace_of_isdigit (c : Char) (h : isdigit c = true) : isspace c = false := by
  cases hs : isspace c with
  | false => rfl
  | true =>
    exfalso
    simp only [isspace, Bool.or_eq_true, beq_iff_eq] at hs
    rcases hs with ((((hs | hs) | hs) | hs) | hs) | hs <;> subst hs <;> revert h <;> decide

/-- A signed digit run, taken as a list of characters, has a numeric start. -/
theorem numericStart_of_signed_digits (l : List Char)
    (h : (!(readSign l).2.isEmpty && (readSign l).2.all isdigit) = true) :
    (match (readSign (l.dropWhile isspace)).2 with
      | [] => false
      | c :: _ => isdigit c) = true := by
  cases l with
  | nil => simp [readSign] at h
  | cons c cs =>
    rw [readSign_cons] at h
    by_cases h1 : c = '-'
    · subst h1
      have hd : List.dropWhile isspace ('-' :: cs) = '-' :: cs := by
        simp [List.dropWhile, isspace]
      rw [hd, readSign_cons]
      cases cs with
      | nil => simp at h
      | cons d ds =>
        simp at h
        simp [h.1]
    · by_cases h2 : c = '+'
      · subst h2
        have hd : List.dropWhile isspace ('+' :: cs) = '+' :: cs := by
          simp [List.dropWhile, isspace]
        rw [hd, readSign_cons]
        cases cs with
        | nil => simp at h
        | cons d ds =>
          simp at h
          simp [h.1]
      · simp only [h1, h2, if_false, List.isEmpty_cons, Bool.not_false, List.all_cons,
          Bool.true_and, Bool.and_eq_true] at h
        have hd : List.dropWhile isspace (c :: cs) = c :: cs := by
          simp [List.dropWhile, isspace_of_isdigit c h.1]
        rw [hd, readSign_cons]
        simp [h1, h2, h.1]

/-- A decimal integer literal has a numeric start. -/
theorem hasNumericStart_of_literal (s : String) (h : isDecimalIntegerLiteral s = true) :
    hasNumericStart s = true :=
  numericStart_of_signed_digits s.toList h

/-- C6, counterexample: "12abc" and " 7" are not decimal integer literals, yet
the integer converter returns 12 and 7 for them instead of failing. -/
theorem C6_malformed_text_accepted :
    isDecimalIntegerLiteral "12abc" = false
    ∧ Converter.int.convert "12abc" = .ok 12
    ∧ isDecimalIntegerLiteral " 7" = false
    ∧ Converter.int.convert " 7" = .ok 7 :=
  ⟨rfl, rfl, rfl, rfl⟩

/-- C6, amended: the integer converter fails exactly when the text, after its
leading white space and an optional sign, does not continue with a decimal
digit (`std::invalid_argument`) or when the value of the digit run found there
is outside the range of `int` (`std::out_of_range`); otherwise it returns that
value, whatever follows the digit run. A text that is a decimal integer
literal always has such a numeric start. The texts "" and "abc" are rejected.
The result of the converter is the result of `std::stoi`, thrown exception
included. -/
theorem C6_int_convert_fails_iff (s : String) :
    ((∃ e, Converter.int.convert s = .error e)
        ↔ hasNumericStart s = false ∨ leadingValue s < INT_MIN ∨ INT_MAX < leadingValue s)
    ∧ (hasNumericStart s = false →
        ∃ what, Converter.int.convert s = .error (StdException.invalid_argument what))
    ∧ (hasNumericStart s = true → leadingValue s < INT_MIN ∨ INT_MAX < leadingValue s →
        ∃ what, Converter.int.convert s = .error (StdException.out_of_range what))
    ∧ (hasNumericStart s = true → INT_MIN ≤ leadingValue s → leadingValue s ≤ INT_MAX →
        Converter.int.convert s = .ok (leadingValue s))
    ∧ (isDecimalIntegerLiteral s = true → hasNumericStart s = true)
    ∧ (∃ what, Converter.int.convert "" = .error (StdException.invalid_argument what))
    ∧ (∃ what, Converter.int.convert "abc" = .error (StdException.invalid_argument what))
    ∧ Converter.int.convert s = stoi s := by
  have h := stoi_eq s
  refine ⟨?_, ?_, ?_, ?_, hasNumericStart_of_literal s, ⟨_, rfl⟩, ⟨_, rfl⟩, rfl⟩
  · unfold Converter.int.convert
    rw [h]
    cases hn : hasNumericStart s
    · simp
    · by_cases hr : leadingValue s < INT_MIN ∨ INT_MAX < leadingValue s
      · simp [hr]
      · simp [hr]
  · intro hn
    exact ⟨"stoi", by unfold Converter.int.convert; rw [h]; simp [hn]⟩
  · intro hn hr
    exact ⟨"stoi", by unfold Converter.int.convert; rw [h]; simp [hn, hr]⟩
  · intro hn h1 h2
    unfold Converter.int.convert
    rw [h]
    have hr : ¬ (leadingValue s < INT_MIN ∨ INT_MAX < leadingValue s) := by
      intro hh; rcases hh with hh | hh <;> omega
    simp [hn, hr]

/-- Witness for C6: " 7" has a numeric start of value 7, within range. -/
theorem C6_int_convert_fails_iff_witness :
    hasNumericStart " 7" = true ∧ INT_MIN ≤ leadingValue " 7" ∧ leadingValue " 7" ≤ INT_MAX
    ∧ Converter.int.convert " 7" = .ok 7 :=
  ⟨rfl, by decide, by decide,
    (C6_int_convert_fails_iff " 7").2.2.2.1 rfl (by decide) (by decide)⟩

/-! ## Claims about creation by name -/

/-- The inner loop hands the first parameter of the group with the requested name to the factory. -/
theorem parameterLoop_eq_find {σ : Type} (Initialize : InitializeFn σ) (name : String)
    (group : List ModuleParameter) :
    parameterLoop Initialize name group
      = (group.find? (fun q => q.Name == name)).map (CreateParameterWrapper Initialize) := by
  induction group with
  | nil => rfl
  | cons q qs ih =>
    by_cases h : (q.Name == name) = true
    · simp [parameterLoop, List.find?, h]
    · simp only [parameterLoop, h, if_false, Bool.false_eq_true, ih]
      simp [List.find?, h]

/-- The outer loop hands the first parameter, in group order and then in-group
order, with the requested name to the factory. -/
theorem groupLoop_eq_find {σ : Type} (Initialize : InitializeFn σ) (name : String)
    (groups : List ParameterGroup) :
    groupLoop Initialize name groups
      = ((allParameters groups).find? (fun q => q.Name == name)).map
          (CreateParameterWrapper Initialize) := by
  induction groups with
  | nil => rfl
  | cons g gs ih =>
    simp only [groupLoop, parameterLoop_eq_find, allParameters, List.flatten_cons,
      List.find?_append]
    unfold allParameters at ih
    cases hg : g.find? (fun q => q.Name == name) with
    | some q => simp
    | none => simp [ih]

/-- The Legacy loops are the same functions. -/
theorem LegacyGroupLoop_eq {σ : Type} (Initialize : InitializeFn σ) (name : String)
    (groups : List ParameterGroup) :
    LegacyGroupLoop Initialize name groups = groupLoop Initialize name groups := by
  have hp : ∀ group : List ModuleParameter,
      LegacyParameterLoop Initialize name group = parameterLoop Initialize name group := by
    intro group
    induction group with
    | nil => rfl
    | cons q qs ih => simp [LegacyParameterLoop, parameterLoop, ih, LegacyCreateParameterWrapper_eq]
  induction groups with
  | nil => rfl
  | cons g gs ih => simp [LegacyGroupLoop, groupLoop, ih, hp]

/-- Creation by name in the Legacy factory is the same function. -/
theorem LegacyCreateParameterWrapperByName_eq {σ : Type} (Initialize : InitializeFn σ)
    (memory : NodeMemory) (d : FactoryPrivate) (name : String) :
    LegacyCreateParameterWrapperByName Initialize memory d name
      = CreateParameterWrapperByName Initialize memory d name := by
  simp [LegacyCreateParameterWrapperByName, CreateParameterWrapperByName, LegacyGroupLoop_eq]

/-- The first element with the requested name, given the list cut at it. -/
theorem find_first_match (name : String) (before after : List ModuleParameter)
    (p : ModuleParameter) (hbefore : ∀ q ∈ before, q.Name ≠ name) (hp : p.Name = name) :
    (before ++ p :: after).find? (fun q => q.Name == name) = some p := by
  induction before with
  | nil => simp [List.find?, hp]
  | cons b bs ih =>
    have hb : (b.Name == name) = false := by simpa using hbefore b (by simp)
    simp only [List.cons_append, List.find?, hb]
    exact ih (fun q hq => hbefore q (by simp [hq]))

/-- Every `Initialize` event of a creation from a descriptor is on that descriptor. -/
theorem Initialize_event_descriptor {σ : Type} (Initialize : InitializeFn σ)
    (p q : ModuleParameter) (T : BridgeParameterClass)
    (h : Event.Initialize T q ∈ (CreateParameterWrapper Initialize p).2) : q = p := by
  rcases dispatch_cell Initialize p with ⟨_, h2⟩ | ⟨_, U, _, h3⟩
  · simp [h2, unrecognizedOutcome] at h
  · rw [h3] at h
    unfold createAndInitialize at h
    split at h <;> simp at h <;> exact h.2

/-- C7: when a tool is loaded and its parameters, read in group order and then
in-group order, are `before`, then `p`, then `after`, with no name in `before`
equal to the requested name and the name of `p` equal to it, creation by name
has exactly the outcome of creation from the descriptor `p`, in both
factories: the wrapper returned or the error raised, and the same events. The
parameters in `before` and `after` are not used: every initialization done is
on `p`. -/
theorem C7_by_name_uses_first_match {σ : Type} (Initialize : InitializeFn σ)
    (memory : NodeMemory) (d : FactoryPrivate) (parameterName : String)
    (moduleDescription : ModuleDescription) (before after : List ModuleParameter)
    (p : ModuleParameter)
    (hloaded : d.CliNode ≠ 0)
    (hnode : memory d.CliNode = some moduleDescription)
    (hcut : allParameters moduleDescription = before ++ p :: after)
    (hbefore : ∀ q ∈ before, q.Name ≠ parameterName)
    (hp : p.Name = parameterName) :
    CreateParameterWrapperByName Initialize memory d parameterName
        = liftOutcome (CreateParameterWrapper Initialize p)
    ∧ LegacyCreateParameterWrapperByName Initialize memory d parameterName
        = liftOutcome (LegacyCreateParameterWrapper Initialize p)
    ∧ ∀ T q, Event.Initialize T q
        ∈ (CreateParameterWrapperByName Initialize memory d parameterName).2 → q = p := by
  have hmain : CreateParameterWrapperByName Initialize memory d parameterName
      = liftOutcome (CreateParameterWrapper Initialize p) := by
    unfold CreateParameterWrapperByName
    simp only [hloaded, if_false, hnode, groupLoop_eq_find, hcut,
      find_first_match parameterName before after p hbefore hp, Option.map_some']
    rcases CreateParameterWrapper Initialize p with ⟨_ | _, events⟩ <;> rfl
  refine ⟨hmain, ?_, ?_⟩
  · rw [LegacyCreateParameterWrapperByName_eq, LegacyCreateParameterWrapper_eq, hmain]
  · intro T q hq
    rw [hmain] at hq
    apply Initialize_event_descriptor Initialize p q T
    revert hq
    unfold liftOutcome
    rcases CreateParameterWrapper Initialize p with ⟨_ | _, events⟩ <;> exact id

/-- Witness for C7: a name differing only in case comes first and a second
"iterations" comes later; the integer descriptor in between is the one used. -/
theorem C7_by_name_uses_first_match_witness :
    (∀ q ∈ [(⟨"Iterations", "float", "false", "5", []⟩ : ModuleParameter)],
        q.Name ≠ "iterations")
    ∧ CreateParameterWrapperByName (fun _ _ => Except.ok ())
        (fun a => if a = 1 then
          some [[⟨"Iterations", "float", "false", "5", []⟩],
                [⟨"iterations", "integer", "false", "3", []⟩,
                 ⟨"iterations", "string", "false", "x", []⟩]]
          else none)
        ⟨1⟩ "iterations"
      = (.returned (some ⟨BridgeParameterClass.IntegerBridgeParameter, ()⟩),
          [Event.construct BridgeParameterClass.IntegerBridgeParameter,
           Event.Initialize BridgeParameterClass.IntegerBridgeParameter
             ⟨"iterations", "integer", "false", "3", []⟩]) :=
  ⟨by decide,
    (C7_by_name_uses_first_match (fun _ _ => Except.ok ())
      (fun a => if a = 1 then
          some [[⟨"Iterations", "float", "false", "5", []⟩],
                [⟨"iterations", "integer", "false", "3", []⟩,
                 ⟨"iterations", "string", "false", "x", []⟩]]
          else none)
      ⟨1⟩ "iterations"
      [[⟨"Iterations", "float", "false", "5", []⟩],
       [⟨"iterations", "integer", "false", "3", []⟩,
        ⟨"iterations", "string", "false", "x", []⟩]]
      [⟨"Iterations", "float", "false", "5", []⟩]
      [⟨"iterations", "string", "false", "x", []⟩]
      ⟨"iterations", "integer", "false", "3", []⟩
      (by decide) rfl rfl (by decide) rfl).1⟩

/-- C8: when a tool is loaded and no parameter of any of its groups has the
requested name, creation by name returns null after one diagnostic line: no
exception is thrown and no wrapper is constructed or initialized. -/
theorem C8_by_name_absent_returns_null {σ : Type} (Initialize : InitializeFn σ)
    (memory : NodeMemory) (d : FactoryPrivate) (parameterName : String)
    (moduleDescription : ModuleDescription)
    (hloaded : d.CliNode ≠ 0)
    (hnode : memory d.CliNode = some moduleDescription)
    (hnone : ∀ group ∈ moduleDescription, ∀ q ∈ group, q.Name ≠ parameterName) :
    CreateParameterWrapperByName Initialize memory d parameterName
        = (.returned none,
            [Event.cerr ("Unable to find parameter with name: " ++ parameterName ++ "\n")])
    ∧ (CreateParameterWrapperByName Initialize memory d parameterName).1 = .returned none
    ∧ (∀ e, (CreateParameterWrapperByName Initialize memory d parameterName).1 ≠ .threw e)
    ∧ ∀ T, Event.construct T
          ∉ (CreateParameterWrapperByName Initialize memory d parameterName).2
        ∧ ∀ q, Event.Initialize T q
          ∉ (CreateParameterWrapperByName Initialize memory d parameterName).2 := by
  have hfind : (allParameters moduleDescription).find? (fun q => q.Name == parameterName)
      = none := by
    rw [List.find?_eq_none]
    intro q hq
    obtain ⟨group, hg, hqg⟩ := List.mem_flatten.mp hq
    simpa using hnone group hg q hqg
  have hmain : CreateParameterWrapperByName Initialize memory d parameterName
      = (.returned none,
          [Event.cerr ("Unable to find parameter with name: " ++ parameterName ++ "\n")]) := by
    unfold CreateParameterWrapperByName
    simp [hloaded, hnode, groupLoop_eq_find, hfind]
  rw [hmain]
  simp

/-- Witness for C8: the loaded tool has "iterations" only; "Iterations" is asked for. -/
theorem C8_by_name_absent_returns_null_witness :
    (∀ group ∈ [[(⟨"iterations", "integer", "false", "3", []⟩ : ModuleParameter)]],
        ∀ q ∈ group, q.Name ≠ "Iterations")
    ∧ CreateParameterWrapperByName (fun _ _ => Except.ok ())
        (fun a => if a = 1 then some [[⟨"iterations", "integer", "false", "3", []⟩]] else none)
        ⟨1⟩ "Iterations"
      = (.returned none, [Event.cerr "Unable to find parameter with name: Iterations\n"]) :=
  ⟨by decide,
    (C8_by_name_absent_returns_null (fun _ _ => Except.ok ())
      (fun a => if a = 1 then some [[⟨"iterations", "integer", "false", "3", []⟩]] else none)
      ⟨1⟩ "Iterations" [[⟨"iterations", "integer", "false", "3", []⟩]]
      (by decide) rfl (by decide)).1⟩

/-- C9, the code at the failing input: the constructor leaves `CliNode` as the
storage held it; when that is a non-null address where no node lives, creation
by name on the factory just constructed passes the null guard and dereferences
the pointer, so it neither returns null nor writes the no-tool diagnostic. The
guard works only if the storage happened to hold zero. -/
theorem C9_fresh_factory_CliNode_indeterminate :
    (FactoryPrivate.construct 1).CliNode = 1
    ∧ CreateParameterWrapperByName (fun _ _ => (Except.ok () : Except StdException Unit))
        (fun _ => none) (FactoryPrivate.construct 1) "iterations"
      = (.undefined, [])
    ∧ LegacyCreateParameterWrapperByName (fun _ _ => (Except.ok () : Except StdException Unit))
        (fun _ => none) (FactoryPrivate.construct 1) "iterations"
      = (.undefined, [])
    ∧ CreateParameterWrapperByName (fun _ _ => (Except.ok () : Except StdException Unit))
        (fun _ => none) (FactoryPrivate.construct 0) "iterations"
      = (.returned none,
          [Event.cerr "Must load a cli module before creating parameter wrappers\n"]) :=
  ⟨rfl, rfl, rfl, rfl⟩

/-! ## Claims about the integer round trip -/

/-- A digit character of the library has the value it was made from, and is a decimal digit. -/
theorem digitChar_spec (k : Nat) (hk : k < 10) :
    digitValue (Nat.digitChar k) = k ∧ isdigit (Nat.digitChar k) = true := by
  interval_cases k <;> exact ⟨rfl, rfl⟩

/-- Reading back the digits the library writes for `n` in front of `ds` is
reading `ds` back with `n` as the number read so far. -/
theorem foldl_toDigitsCore (fuel n : Nat) (ds : List Char) (h : n < fuel) :
    (Nat.toDigitsCore 10 fuel n ds).foldl (fun acc c => 10 * acc + digitValue c) 0
      = ds.foldl (fun acc c => 10 * acc + digitValue c) n := by
  induction fuel generalizing n ds with
  | zero => omega
  | succ fuel ih =>
    have hd := (digitChar_spec (n % 10) (Nat.mod_lt _ (by decide))).1
    unfold Nat.toDigitsCore
    by_cases h0 : n / 10 = 0
    · have hn : n % 10 = n := Nat.mod_eq_of_lt (by omega)
      simp only [h0, if_true, List.foldl_cons, Nat.mul_zero, Nat.zero_add, hd]
      rw [hn]
    · have hlt : n / 10 < fuel := by omega
      simp only [h0, if_false]
      rw [ih (n / 10) _ hlt]
      simp only [List.foldl_cons, hd]
      congr 1
      omega

/-- The digits the library writes are decimal digits. -/
theorem isdigit_toDigitsCore (fuel n : Nat) (ds : List Char)
    (hds : ∀ c ∈ ds, isdigit c = true) :
    ∀ c ∈ Nat.toDigitsCore 10 fuel n ds, isdigit c = true := by
  induction fuel generalizing n ds with
  | zero => simpa [Nat.toDigitsCore] using hds
  | succ fuel ih =>
    have hd := (digitChar_spec (n % 10) (Nat.mod_lt _ (by decide))).2
    have hcons : ∀ c ∈ Nat.digitChar (n % 10) :: ds, isdigit c = true := by
      intro c hc
      rcases List.mem_cons.mp hc with rfl | hc
      · exact hd
      · exact hds c hc
    unfold Nat.toDigitsCore
    by_cases h0 : n / 10 = 0
    · simpa only [h0, if_true] using hcons
    · simp only [h0, if_false]
      exact ih _ _ hcons

/-- The library writes at least one digit. -/
theorem toDigitsCore_ne_nil (fuel n : Nat) (ds : List Char) (h : ds ≠ [] ∨ 0 < fuel) :
    Nat.toDigitsCore 10 fuel n ds ≠ [] := by
  induction fuel generalizing n ds with
  | zero =>
    rcases h with h | h
    · simpa [Nat.toDigitsCore] using h
    · omega
  | succ fuel ih =>
    unfold Nat.toDigitsCore
    by_cases h0 : n / 10 = 0
    · simp [h0]
    · simp only [h0, if_false]
      exact ih _ _ (Or.inl (by simp))

/-- The decimal digits of a natural number denote it. -/
theorem decimalValue_toDigits (n : Nat) : decimalValue (Nat.toDigits 10 n) = n := by
  unfold decimalValue Nat.toDigits
  rw [foldl_toDigitsCore (n + 1) n [] (by omega)]
  rfl

/-- A run of decimal digits is taken whole. -/
theorem takeWhile_isdigit_all (ds : List Char) (h : ∀ c ∈ ds, isdigit c = true) :
    ds.takeWhile isdigit = ds := by
  induction ds with
  | nil => rfl
  | cons c cs ih =>
    have hc := h c (by simp)
    simp only [List.takeWhile, hc]
    rw [ih (fun d hd => h d (by simp [hd]))]

/-- `std::stoi` on an optional minus followed by a non-empty run of digits,
when the value denoted is in the range of `int`. -/
theorem stoi_signed_digits (s : String) (neg : Bool) (ds : List Char)
    (hs : s.toList = if neg then '-' :: ds else ds)
    (hne : ds ≠ []) (hall : ∀ c ∈ ds, isdigit c = true)
    (hmin : INT_MIN ≤ (if neg then -(decimalValue ds : Int) else (decimalValue ds : Int)))
    (hmax : (if neg then -(decimalValue ds : Int) else (decimalValue ds : Int)) ≤ INT_MAX) :
    stoi s = .ok (if neg then -(decimalValue ds : Int) else (decimalValue ds : Int)) := by
  obtain ⟨c, cs, rfl⟩ := List.exists_cons_of_ne_nil hne
  have hc : isdigit c = true := hall c (by simp)
  have hsp : isspace c = false := isspace_of_isdigit c hc
  have hm : c ≠ '-' := by intro h; subst h; revert hc; decide
  have hp : c ≠ '+' := by intro h; subst h; revert hc; decide
  have hsign : readSign (s.toList.dropWhile isspace) = (neg, c :: cs) := by
    rw [hs]
    cases neg with
    | true =>
      have : List.dropWhile isspace ('-' :: c :: cs) = '-' :: c :: cs := by
        simp [List.dropWhile, isspace]
      simp only [if_true, this]
      rfl
    | false =>
      have : List.dropWhile isspace (c :: cs) = c :: cs := by
        simp [List.dropWhile, hsp]
      simp only [Bool.false_eq_true, if_false, this, readSign_cons, hm, hp]
  have hrange : ¬ ((if neg then -(decimalValue (c :: cs) : Int) else (decimalValue (c :: cs) : Int))
      < INT_MIN ∨ INT_MAX
        < (if neg then -(decimalValue (c :: cs) : Int) else (decimalValue (c :: cs) : Int))) := by
    intro h; rcases h with h | h <;> omega
  unfold stoi
  simp only [hsign, takeWhile_isdigit_all (c :: cs) hall, List.isEmpty_cons,
    Bool.false_eq_true, if_false]
  cases neg <;> simp_all

/-- C11: for every value in the range of a 32-bit signed `int`, the integer
converter applied to the decimal text form of the value succeeds and returns
the value. -/
theorem C11_int_round_trip (v : Int) (hmin : INT_MIN ≤ v) (hmax : v ≤ INT_MAX) :
    Converter.int.convert (decimalText v) = .ok v := by
  unfold Converter.int.convert
  cases v with
  | ofNat m =>
    have hval : ((decimalValue (Nat.toDigits 10 m) : Nat) : Int) = Int.ofNat m := by
      rw [decimalValue_toDigits]; rfl
    have := stoi_signed_digits (decimalText (Int.ofNat m)) false (Nat.toDigits 10 m) rfl
      (toDigitsCore_ne_nil _ _ _ (Or.inr (by omega)))
      (isdigit_toDigitsCore _ _ _ (by simp))
      (by simpa [hval] using hmin) (by simpa [hval] using hmax)
    simpa [hval] using this
  | negSucc m =>
    have hval : -((decimalValue (Nat.toDigits 10 (m + 1)) : Nat) : Int) = Int.negSucc m := by
      rw [decimalValue_toDigits]; rfl
    have := stoi_signed_digits (decimalText (Int.negSucc m)) true (Nat.toDigits 10 (m + 1)) rfl
      (toDigitsCore_ne_nil _ _ _ (Or.inr (by omega)))
      (isdigit_toDigitsCore _ _ _ (by simp))
      (by simpa [hval] using hmin) (by simpa [hval] using hmax)
    simpa [hval] using this

/-- Witness for C11: the smallest `int`, written "-2147483648", reads back. -/
theorem C11_int_round_trip_witness :
    INT_MIN ≤ (-2147483648 : Int) ∧ (-2147483648 : Int) ≤ INT_MAX
    ∧ decimalText (-2147483648) = "-2147483648"
    ∧ Converter.int.convert (decimalText (-2147483648)) = .ok (-2147483648) :=
  ⟨by decide, by decide, by decide,
    C11_int_round_trip (-2147483648) (by decide) (by decide)⟩

/-! ## Claims about empty fields -/

/-- A trailing delimiter adds one empty field at the end. -/
theorem splitOn_append_delim (delim : Char) (l : List Char) :
    (l ++ [delim]).splitOn delim = l.splitOn delim ++ [[]] := by
  induction l with
  | nil => simp [splitOn_eq_extractUntil, extractUntil]
  | cons c cs ih =>
    rw [List.cons_append, splitOn_eq_extractUntil delim (c :: (cs ++ [delim])),
      splitOn_eq_extractUntil delim (c :: cs)]
    by_cases hc : (c == delim) = true
    · simp [extractUntil, hc, ih]
    · have h1 := splitOn_eq_extractUntil delim (cs ++ [delim])
      have h2 := splitOn_eq_extractUntil delim cs
      rw [ih] at h1
      simp only [extractUntil, hc, Bool.false_eq_true, if_false]
      rcases hx : extractUntil delim cs with ⟨f, _ | r⟩ <;>
        rcases hy : extractUntil delim (cs ++ [delim]) with ⟨g, _ | r'⟩ <;>
        simp only [hx, hy] at h1 h2 ⊢ <;> rw [h2] at h1 <;> simp_all

/-- A trailing comma adds the empty text as last field. -/
theorem commaFields_append_comma (t : String) :
    commaFields (t ++ ",") = commaFields t ++ [""] := by
  unfold commaFields
  have : (t ++ ",").toList = t.toList ++ [','] := by simp [String.toList]
  rw [this, splitOn_append_delim]
  simp

/-- A text always has at least one field. -/
theorem commaFields_ne_nil (s : String) : commaFields s ≠ [] := by
  unfold commaFields List.splitOn
  simp [List.splitOnP_ne_nil]

/-- A scalar converter that never throws converts every field. -/
theorem convertEachField_total {T : Type} (f : String → T) (fields : List String) :
    convertEachField (fun s => (Except.ok (f s) : Except StdException T)) fields
      = .ok (fields.map f) :=
  convertEachField_ok _ fields (fields.map f) (by simp)

/-- Converting no field is the only way to an empty result. -/
theorem convertEachField_ne_nil {T : Type} (convert : String → Except StdException T)
    (fields : List String) (h : fields ≠ []) :
    convertEachField convert fields ≠ .ok [] := by
  cases fields with
  | nil => exact absurd rfl h
  | cons f fs =>
    unfold convertEachField
    cases convert f with
    | error e => simp
    | ok v => cases convertEachField convert fs <;> simp

/-- A scalar converter that throws on the empty text makes the conversion of
fields ending in the empty text throw. -/
theorem convertEachField_last_empty {T : Type} (convert : String → Except StdException T)
    (fields : List String) (e : StdException) (h : convert "" = .error e) :
    ∃ e', convertEachField convert (fields ++ [""]) = .error e' :=
  (convertEachField_error_iff convert (fields ++ [""])).mpr ⟨"", by simp, e, h⟩

/-- C12: vector conversion of the empty text converts exactly one field, the
empty text: the result is the scalar conversion of "" as a one-element
sequence, or its failure. So it fails for the element types int, double and
float, gives [false] for bool and [""] for string; and no vector conversion,
of any text, returns an empty sequence. -/
theorem C12_vector_of_empty_text {F : Type} (strtod strtof : String → Option F) :
    commaFields "" = [""]
    ∧ (∀ (T : Type) (convert : String → Except StdException T),
        Converter.vector.convert convert ""
          = some (match convert "" with
                  | .ok v => .ok [v]
                  | .error e => .error e))
    ∧ (∃ what, Converter.vector.convert Converter.int.convert ""
        = some (.error (StdException.invalid_argument what)))
    ∧ (∃ what, Converter.vector.convert (Converter.double.convert strtod) ""
        = some (.error (StdException.invalid_argument what)))
    ∧ (∃ what, Converter.vector.convert (Converter.float.convert strtof) ""
        = some (.error (StdException.invalid_argument what)))
    ∧ Converter.vector.convert (fun s => Except.ok (Converter.bool.convert s)) ""
        = some (.ok [false])
    ∧ Converter.vector.convert (fun s => Except.ok (Converter.string.convert s)) ""
        = some (.ok [""])
    ∧ (∀ (T : Type) (convert : String → Except StdException T) (s : String),
        Converter.vector.convert convert s ≠ some (.ok [])) := by
  refine ⟨rfl, ?_, ⟨"stoi", rfl⟩, ⟨"stod", rfl⟩, ⟨"stof", rfl⟩, rfl, rfl, ?_⟩
  · intro T convert
    rw [vector_convert_eq]
    have : commaFields "" = [""] := rfl
    rw [this]
    unfold convertEachField
    cases convert "" <;> rfl
  · intro T convert s
    rw [vector_convert_eq]
    intro h
    exact convertEachField_ne_nil convert _ (commaFields_ne_nil s) (Option.some.inj h)

/-- Witness for C12: the integer vector of "1" is not the empty sequence. -/
theorem C12_vector_of_empty_text_witness :
    Converter.vector.convert Converter.int.convert "1" = some (.ok [1])
    ∧ Converter.vector.convert Converter.int.convert "1" ≠ some (.ok []) :=
  ⟨rfl, (C12_vector_of_empty_text (fun _ => (none : Option Unit)) (fun _ => none)).2.2.2.2.2.2.2
    Int Converter.int.convert "1"⟩

/-- C13: for every text followed by a comma, the empty trailing field is one
more element, converted by the scalar converter on the empty text: the int,
double and float vector conversions fail; the string vector conversion
succeeds with the fields of the text and then ""; the bool vector conversion
succeeds with their values and then false. "a,b," gives ["a", "b", ""]. -/
theorem C13_trailing_comma {F : Type} (strtod strtof : String → Option F) (t : String) :
    commaFields (t ++ ",") = commaFields t ++ [""]
    ∧ (∃ e, Converter.vector.convert Converter.int.convert (t ++ ",") = some (.error e))
    ∧ (∃ e, Converter.vector.convert (Converter.double.convert strtod) (t ++ ",")
        = some (.error e))
    ∧ (∃ e, Converter.vector.convert (Converter.float.convert strtof) (t ++ ",")
        = some (.error e))
    ∧ Converter.vector.convert (fun s => Except.ok (Converter.string.convert s)) (t ++ ",")
        = some (.ok (commaFields t ++ [""]))
    ∧ Converter.vector.convert (fun s => Except.ok (Converter.bool.convert s)) (t ++ ",")
        = some (.ok ((commaFields t).map Converter.bool.convert ++ [false]))
    ∧ Converter.vector.convert (fun s => Except.ok (Converter.string.convert s)) "a,b,"
        = some (.ok ["a", "b", ""]) := by
  have hf := commaFields_append_comma t
  refine ⟨hf, ?_, ?_, ?_, ?_, ?_, rfl⟩
  · obtain ⟨e, he⟩ := convertEachField_last_empty Converter.int.convert (commaFields t) _ rfl
    exact ⟨e, by rw [vector_convert_eq, hf, he]⟩
  · obtain ⟨e, he⟩ :=
      convertEachField_last_empty (Converter.double.convert strtod) (commaFields t) _ rfl
    exact ⟨e, by rw [vector_convert_eq, hf, he]⟩
  · obtain ⟨e, he⟩ :=
      convertEachField_last_empty (Converter.float.convert strtof) (commaFields t) _ rfl
    exact ⟨e, by rw [vector_convert_eq, hf, he]⟩
  · rw [vector_convert_eq, hf, convertEachField_total]
    have hid : Converter.string.convert = id := rfl
    simp [hid]
  · rw [vector_convert_eq, hf, convertEachField_total]
    simp [Converter.bool.convert]

/-- C14: for every variant and every element type, the variant path of the
vector converter is its text path on the text form of the variant, with the
same result or the same failure, in the `std::vector` and in the `QVector`
specialisation; both convert the comma-separated fields of that text form. -/
theorem C14_variant_path_is_text_path {V T : Type} (text : V → String)
    (convert : String → Except StdException T) (v : V) :
    Converter.vector.convertVariant text convert v
        = Converter.vector.convert convert (text v)
    ∧ Converter.QVector.convertVariant text convert v
        = Converter.QVector.convert convert (text v)
    ∧ Converter.vector.convertVariant text convert v
        = some (convertEachField convert (commaFields (text v)))
    ∧ Converter.QVector.convertVariant text convert v
        = some (convertEachField convert (commaFields (text v))) :=
  ⟨rfl, rfl, vector_convert_eq convert (text v), vector_convert_eq convert (text v)⟩

/-- C15: when the (tag, multiplicity) pair of a descriptor is not a supported
cell, the exception the factory throws is `std::invalid_argument` whose message
is "Unknown parameter: ", the name, " of type ", "multiple " when the
multiplicity text is "true" and nothing otherwise, the tag, and a newline. -/
theorem C15_unrecognized_message {σ : Type} (Initialize : InitializeFn σ)
    (p : ModuleParameter)
    (hcell : supportedCell p.Tag (p.Multiple == "true") = false) :
    (CreateParameterWrapper Initialize p).1
      = .error (StdException.invalid_argument
          ("Unknown parameter: " ++ p.Name ++ " of type "
            ++ (if p.Multiple = "true" then "multiple " else "") ++ p.Tag ++ "\n")) := by
  rcases dispatch_cell Initialize p with ⟨_, h2⟩ | ⟨h1, _⟩
  swap
  · rw [hcell] at h1
    exact absurd h1 (by decide)
  rw [h2]
  by_cases hm : p.Multiple = "true" <;> simp [unrecognizedOutcome, unknownParameterText, hm]

/-- Witness for C15: a boolean descriptor with multiplicity text "true". -/
theorem C15_unrecognized_message_witness :
    supportedCell "boolean" (("true" : String) == "true") = false
    ∧ (CreateParameterWrapper (fun _ _ => Except.ok ())
        ⟨"flags", "boolean", "true", "", []⟩).1
      = .error (StdException.invalid_argument
          "Unknown parameter: flags of type multiple boolean\n") :=
  ⟨by decide, C15_unrecognized_message (fun _ _ => Except.ok ())
    ⟨"flags", "boolean", "true", "", []⟩ (by decide)⟩


/-! ## Claims about loading, ownership and the two trees -/

/-- The class the factory constructs does not depend on the initialization
routines: two factories over the same dispatch construct the same class, or
both end as the unrecognized outcome. -/
theorem dispatch_same_class {σ τ : Type} (I1 : InitializeFn σ) (I2 : InitializeFn τ)
    (p : ModuleParameter) :
    (∃ T, (p.Tag, T.variant) ∈
          (if (p.Multiple == "true") = true then multiplicityTrueColumn
            else multiplicityFalseColumn)
        ∧ CreateParameterWrapper I1 p = createAndInitialize I1 T p
        ∧ CreateParameterWrapper I2 p = createAndInitialize I2 T p)
    ∨ (supportedCell p.Tag (p.Multiple == "true") = false
        ∧ CreateParameterWrapper I1 p = unrecognizedOutcome p
        ∧ CreateParameterWrapper I2 p = unrecognizedOutcome p) := by
  rcases dispatch_cell I1 p with ⟨h1, h2⟩ | ⟨h1, T, h2, h3⟩ <;>
    rcases dispatch_cell I2 p with ⟨k1, k2⟩ | ⟨k1, U, k2, k3⟩
  · exact Or.inr ⟨h1, h2, k2⟩
  · rw [h1] at k1; exact absurd k1 (by decide)
  · rw [h1] at k1; exact absurd k1 (by decide)
  · have hTU : T = U := by
      apply variant_injective
      by_cases hm : (p.Multiple == "true") = true
      · rw [if_pos hm] at h2 k2
        exact trueColumn_functional p.Tag _ _ h2 k2
      · rw [if_neg hm] at h2 k2
        exact falseColumn_functional p.Tag _ _ h2 k2
    subst hTU
    exact Or.inl ⟨T, h2, h3, k3⟩

/-- C16, the code at the failing inputs: when the module manager has no CLI
module of the name, `loadCLIModule` writes its diagnostic and then calls
`logic()` on the null pointer; when the module has no CLI logic it writes its
diagnostic and then calls `CreateNodeInScene()` on the null pointer. Neither
call completes, in either factory. Only when node creation returns null does
it complete with a null `CliNode`, after which creation by name returns null. -/
theorem C16_loadCLIModule_dereferences_null (memory : NodeMemory) (d : FactoryPrivate)
    (cliModuleName : String) (description : ModuleDescription) :
    loadCLIModule (fun _ => none) memory d cliModuleName
      = (.undefined,
          [Event.cerr ("Unable to find a qSlicerCLIModule with the name: "
            ++ cliModuleName ++ "\n")])
    ∧ loadCLIModule (fun _ => some ⟨none⟩) memory d cliModuleName
      = (.undefined,
          [Event.cerr ("Unable to find a vtkSlicerCLIModuleLogic for module with the name: "
            ++ cliModuleName ++ "\n")])
    ∧ LegacyLoadCLIModule (fun _ => none) memory d cliModuleName
      = (.undefined,
          [Event.cerr ("Unable to find a qSlicerCLIModule with the name: "
            ++ cliModuleName ++ "\n")])
    ∧ LegacyLoadCLIModule (fun _ => some ⟨none⟩) memory d cliModuleName
      = (.undefined,
          [Event.cerr ("Unable to find a vtkSlicerCLIModuleLogic for module with the name: "
            ++ cliModuleName ++ "\n")])
    ∧ loadCLIModule (fun _ => some ⟨some ⟨0, description⟩⟩) memory d cliModuleName
      = (.returned ({ CliNode := 0 }, memory),
          [Event.cerr
            ("Unable to create a vtkMRMLCommandLineModuleNode for module with the name: "
              ++ cliModuleName ++ "\n")])
    ∧ (∀ parameterName : String,
        (CreateParameterWrapperByName (fun _ _ => (Except.ok () : Except StdException Unit))
          memory { CliNode := 0 } parameterName).1 = .returned none) :=
  ⟨rfl, rfl, rfl, rfl, rfl, fun _ => rfl⟩

/-- C17, the code at the failing input: a wrapper the factory created for an
integer descriptor is still alive after the destructor of the factory has
run, whatever the factory holds; the destructor destroys no wrapper at all,
and creation leaves nothing in the factory to find the wrapper by. -/
theorem C17_wrapper_outlives_factory (memory : NodeMemory) (GetScene : NodePtr → Bool)
    (d : FactoryPrivate) :
    (CreateParameterWrapper (fun _ _ => (Except.ok () : Except StdException Unit))
        ⟨"iterations", "integer", "false", "3", []⟩).1
      = .ok ⟨BridgeParameterClass.IntegerBridgeParameter, ()⟩
    ∧ liveWrappers
        ((CreateParameterWrapper (fun _ _ => (Except.ok () : Except StdException Unit))
            ⟨"iterations", "integer", "false", "3", []⟩).2
          ++ (FactoryDestructor memory GetScene d).2)
      = [BridgeParameterClass.IntegerBridgeParameter]
    ∧ (FactoryDestructor memory GetScene d).2 = [] := by
  have hd : (FactoryDestructor memory GetScene d).2 = [] := by
    unfold FactoryDestructor
    split
    · rfl
    · split
      · rfl
      · split <;> rfl
  refine ⟨rfl, ?_, hd⟩
  rw [hd]
  rfl

/-- C18: for every descriptor the Legacy factory and the non-Legacy factory,
each with the initialization routines of its own wrapper classes, construct a
wrapper of the same class, hence of the same (base type, shape) variant, or
both throw `std::invalid_argument` with the same message after writing it to
the diagnostic channel. Over the same initialization routines the two calls
have the same outcome altogether. -/
theorem C18_legacy_dispatch_identical {σ τ : Type} (InitializeLegacy : InitializeFn σ)
    (Initialize : InitializeFn τ) (p : ModuleParameter) :
    ((∃ T, LegacyCreateParameterWrapper InitializeLegacy p
            = createAndInitialize InitializeLegacy T p
          ∧ CreateParameterWrapper Initialize p = createAndInitialize Initialize T p)
      ∨ (∃ what,
          LegacyCreateParameterWrapper InitializeLegacy p
            = (.error (StdException.invalid_argument what), [Event.cerr (what ++ "\n")])
          ∧ CreateParameterWrapper Initialize p
            = (.error (StdException.invalid_argument what), [Event.cerr (what ++ "\n")])))
    ∧ constructedClasses (LegacyCreateParameterWrapper InitializeLegacy p).2
        = constructedClasses (CreateParameterWrapper Initialize p).2
    ∧ LegacyCreateParameterWrapper Initialize p = CreateParameterWrapper Initialize p := by
  rw [LegacyCreateParameterWrapper_eq]
  rcases dispatch_same_class InitializeLegacy Initialize p with ⟨T, _, h1, h2⟩ | ⟨_, h1, h2⟩
  · refine ⟨Or.inl ⟨T, h1, h2⟩, ?_, rfl⟩
    rw [h1, h2]
    unfold createAndInitialize
    cases InitializeLegacy T p <;> cases Initialize T p <;> rfl
  · refine ⟨Or.inr ⟨_, h1, h2⟩, ?_, rfl⟩
    rw [h1, h2]
    rfl

/-- C19: a descriptor counts as multiple only when its multiplicity text is
exactly "true". With any other multiplicity text the factory constructs the
class it constructs for the text "false", a class of the multiplicity=false
column, or ends as unrecognized with the same message as for "false". So the
tag integer with such a text gets the scalar integer wrapper. The Legacy
factory does the same. -/
theorem C19_only_exact_true_is_multiple {σ : Type} (Initialize : InitializeFn σ)
    (p : ModuleParameter) (m : String) (hm : m ≠ "true") :
    ((∃ T, (p.Tag, T.variant) ∈ multiplicityFalseColumn
          ∧ CreateParameterWrapper Initialize { p with Multiple := m }
              = createAndInitialize Initialize T { p with Multiple := m }
          ∧ CreateParameterWrapper Initialize { p with Multiple := "false" }
              = createAndInitialize Initialize T { p with Multiple := "false" })
      ∨ (∃ what,
          CreateParameterWrapper Initialize { p with Multiple := m }
            = (.error (StdException.invalid_argument what), [Event.cerr (what ++ "\n")])
          ∧ CreateParameterWrapper Initialize { p with Multiple := "false" }
            = (.error (StdException.invalid_argument what), [Event.cerr (what ++ "\n")])))
    ∧ (p.Tag = "integer" →
        CreateParameterWrapper Initialize { p with Multiple := m }
          = createAndInitialize Initialize BridgeParameterClass.IntegerBridgeParameter
              { p with Multiple := m })
    ∧ LegacyCreateParameterWrapper Initialize { p with Multiple := m }
        = CreateParameterWrapper Initialize { p with Multiple := m } := by
  have hf : ("false" : String) ≠ "true" := by decide
  refine ⟨?_, ?_, rfl⟩
  · rcases dispatch_single Initialize { p with Multiple := m } with ⟨h1, h2⟩ | ⟨h1, T, h2, h3⟩ <;>
      rcases dispatch_single Initialize { p with Multiple := "false" } with
        ⟨k1, k2⟩ | ⟨k1, U, k2, k3⟩
    · refine Or.inr ⟨unknownParameterText p false, ?_, ?_⟩
      · rw [h2 hm]
        have hb : (m == "true") = false := by simpa using hm
        simp [unrecognizedOutcome, unknownParameterText, hb]
      · rw [k2 hf]
        simp [unrecognizedOutcome, unknownParameterText]
    · simp only at h1 k1; rw [h1] at k1; exact absurd k1 (by decide)
    · simp only at h1 k1; rw [h1] at k1; exact absurd k1 (by decide)
    · have hTU : T = U := variant_injective T U (falseColumn_functional p.Tag _ _ h2 k2)
      subst hTU
      exact Or.inl ⟨T, h2, h3 hm, k3 hf⟩
  · intro ht
    rcases dispatch_single Initialize { p with Multiple := m } with ⟨h1, _⟩ | ⟨_, T, h2, h3⟩
    · simp only [ht] at h1
      exact absurd h1 (by decide)
    · have hT : T = BridgeParameterClass.IntegerBridgeParameter := by
        apply variant_injective
        simp only [ht] at h2
        exact falseColumn_functional "integer" _ _ h2
          (by simp [multiplicityFalseColumn, BridgeParameterClass.variant])
      rw [h3 hm, hT]

/-- Witness for C19: tag integer with multiplicity text "True" gets the scalar
integer wrapper. -/
theorem C19_only_exact_true_is_multiple_witness :
    ("True" : String) ≠ "true"
    ∧ CreateParameterWrapper (fun _ _ => (Except.ok () : Except StdException Unit))
        ⟨"iterations", "integer", "True", "3", []⟩
      = (.ok ⟨BridgeParameterClass.IntegerBridgeParameter, ()⟩,
          [Event.construct BridgeParameterClass.IntegerBridgeParameter,
           Event.Initialize BridgeParameterClass.IntegerBridgeParameter
             ⟨"iterations", "integer", "True", "3", []⟩]) :=
  ⟨by decide,
    (C19_only_exact_true_is_multiple (fun _ _ => (Except.ok () : Except StdException Unit))
      ⟨"iterations", "integer", "false", "3", []⟩ "True" (by decide)).2.1 rfl⟩

end SlicerPipelines
